import Mathlib

/-!
# smartStudy backend: the AI-generation-with-fallback pipeline

A shallow embedding of `src/services/ai.js` (rate limiter, schema validators,
model client, response extractor, fallback generator and the orchestrator
`generateStudyContent`), of `trimContent` of `src/services/wiki.js` and of the
`/study` route (`src/routes/study.js` with `sendError` of `src/utils/response.js`),
followed by theorems about them.

Modelling conventions
* A JavaScript string is the list of its UTF-16 code units (`JsString`).
* A JavaScript value (a `JSON.parse` result, or `undefined` as produced by a
  property read) is a `JsVal`.  Numbers are rationals `num / (den + 1)` or an
  infinity, which is what `JSON.parse` can produce.
* A thrown exception is the `error` case of `Except JsError`.
* What the runtime or the outside world decides (the clock, the network, the
  credential, `JSON.parse`, `Math.random`) is an explicit argument.
-/

namespace SmartStudy

/-! ## Strings -/

/-- A JavaScript string: the sequence of its UTF-16 code units. -/
abbrev JsString := List Nat

/-- The code units of a string literal of the source (all literals of the source are in the
Basic Multilingual Plane, where a character is one code unit). -/
def lit (s : String) : JsString := s.toList.map Char.toNat

/-- The characters matched by the regular expression class `\s`, which are also the ones
removed by `String.prototype.trim` (WhiteSpace and LineTerminator of ECMAScript). -/
def isWhitespace (c : Nat) : Bool :=
  c == 9 || c == 10 || c == 11 || c == 12 || c == 13 || c == 32 || c == 160 || c == 5760 ||
  (8192 ≤ c && c ≤ 8202) || c == 8232 || c == 8233 || c == 8239 || c == 8287 ||
  c == 12288 || c == 65279

/-- The method `String.prototype.trim`. -/
def jsTrim (s : JsString) : JsString :=
  ((s.dropWhile isWhitespace).reverse.dropWhile isWhitespace).reverse

/-- The scan of `text.split(/\s+/)`: `cur` is the piece being collected and `inSep` tells
whether the scan is inside a separator match. -/
def splitWhitespaceAux : JsString → Bool → JsString → List JsString
  | cur, _, [] => [cur]
  | cur, inSep, c :: rest =>
    if isWhitespace c then
      if inSep then splitWhitespaceAux cur true rest
      else cur :: splitWhitespaceAux [] true rest
    else splitWhitespaceAux (cur ++ [c]) false rest

/-- The call `text.split(/\s+/)`. -/
def splitWhitespace (text : JsString) : List JsString :=
  splitWhitespaceAux [] false text

/-- The class `[.!?]`. -/
def isSentenceEnd (c : Nat) : Bool := c == 46 || c == 33 || c == 63

/-- The scan of `wikiText.split(/(?<=[.!?])\s+/)`: a separator is a maximal whitespace run that
directly follows one of `.`, `!`, `?`.  `prevEnd` tells whether the previous character is in
`[.!?]` and `inSep` whether the scan is inside a separator match. -/
def splitSentencesAux : JsString → Bool → Bool → JsString → List JsString
  | cur, _, _, [] => [cur]
  | cur, prevEnd, inSep, c :: rest =>
    if isWhitespace c then
      if inSep then splitSentencesAux cur false true rest
      else if prevEnd then cur :: splitSentencesAux [] false true rest
      else splitSentencesAux (cur ++ [c]) false false rest
    else splitSentencesAux (cur ++ [c]) (isSentenceEnd c) false rest

/-- The call `wikiText.split(/(?<=[.!?])\s+/)`. -/
def splitSentences (wikiText : JsString) : List JsString :=
  splitSentencesAux [] false false wikiText

/-- The length of the match of `/\$\{[^}]+\}/` at the start of `s`, if there is one: `$`, `{`,
the longest run of characters other than `}` (at least one), then `}`. -/
def templateMatchLength (s : JsString) : Option Nat :=
  match s with
  | 36 :: 123 :: rest =>
    let run := rest.takeWhile (fun c => c != 125)
    if run.length ≥ 1 && (rest.drop run.length).head? == some 125 then some (run.length + 3)
    else none
  | _ => none

/-- The scan of `rawTopic.replace(/\$\{[^}]+\}/g, '')`: `skip` counts the characters of the
current match that are still to be dropped. -/
def stripTemplatesAux : Nat → JsString → JsString
  | _, [] => []
  | skip + 1, _ :: rest => stripTemplatesAux skip rest
  | 0, c :: rest =>
    match templateMatchLength (c :: rest) with
    | some n => stripTemplatesAux (n - 1) rest
    | none => c :: stripTemplatesAux 0 rest

/-- The call `rawTopic.replace(/\$\{[^}]+\}/g, '')`. -/
def stripTemplates (rawTopic : JsString) : JsString := stripTemplatesAux 0 rawTopic

/-- The method `Array.prototype.join` on an array of strings. -/
def jsJoin (sep : JsString) : List JsString → JsString
  | [] => []
  | [s] => s
  | s :: rest => s ++ sep ++ jsJoin sep rest

/-- The decimal digits of a natural number, as a template literal renders it. -/
def natToJsString (n : Nat) : JsString := (Nat.toDigits 10 n).map Char.toNat

/-! ## Values and errors -/

/-- A number produced by `JSON.parse`: the rational `num / (den + 1)`, or an infinity (a literal
too large for a double). -/
inductive JsNum where
  | fin (num : Int) (den : Nat)
  | posInf
  | negInf
deriving DecidableEq, Repr

/-- The comparison `x < k` for an integer constant `k`. -/
def JsNum.ltInt : JsNum → Int → Bool
  | .fin num den, k => decide (num < k * (den + 1))
  | .posInf, _ => false
  | .negInf, _ => true

/-- The comparison `x > k` for an integer constant `k`. -/
def JsNum.gtInt : JsNum → Int → Bool
  | .fin num den, k => decide (num > k * (den + 1))
  | .posInf, _ => true
  | .negInf, _ => false

/-- Whether the number is an integer. -/
def JsNum.isInteger : JsNum → Bool
  | .fin num den => decide (num % ((den : Int) + 1) = 0)
  | _ => false

/-- Whether the number is zero (the falsy number). -/
def JsNum.isZero : JsNum → Bool
  | .fin num _ => decide (num = 0)
  | _ => false

/-- A JavaScript value: what `JSON.parse` returns, and `undefined`, which reading an absent
property gives.  An object is the list of its own properties (keys distinct). -/
inductive JsVal where
  | undefined
  | null
  | bool (b : Bool)
  | num (n : JsNum)
  | str (s : JsString)
  | arr (items : List JsVal)
  | obj (props : List (JsString × JsVal))

/-- The results of the `typeof` operator on the values of `JsVal`. -/
inductive JsType where
  | undefined | object | boolean | number | string
deriving DecidableEq, Repr

/-- The `typeof` operator (`typeof null` is `'object'`, as is the type of an array). -/
def typeOf : JsVal → JsType
  | .undefined => .undefined
  | .null => .object
  | .bool _ => .boolean
  | .num _ => .number
  | .str _ => .string
  | .arr _ => .object
  | .obj _ => .object

/-- A thrown exception: an `HttpError` of `utils/errors.js` (status code, message, and the
`cause` of its details when given), or an error of the runtime, which has no `statusCode`. -/
inductive JsError where
  | HttpError (statusCode : Nat) (message : JsString) (cause : Option JsString)
  | TypeError
  | SyntaxError
deriving DecidableEq, Repr

/-- The property `error.statusCode` (`none` is `undefined`). -/
def JsError.statusCode : JsError → Option Nat
  | .HttpError statusCode _ _ => some statusCode
  | _ => none

/-- Whether the value is `undefined` or `null`. -/
def isNullish : JsVal → Bool
  | .undefined => true
  | .null => true
  | _ => false

/-- The truthiness of a value (`undefined`, `null`, `false`, `0` and `''` are falsy). -/
def isTruthy : JsVal → Bool
  | .undefined => false
  | .null => false
  | .bool b => b
  | .num n => !n.isZero
  | .str s => !s.isEmpty
  | .arr _ => true
  | .obj _ => true

/-- The operator `a || b`. -/
def jsOr (a b : JsVal) : JsVal := if isTruthy a then a else b

/-- Reading the property `key` of a value that is neither `undefined` nor `null`, for the keys
this program reads by name (`summary`, `quiz`, `studyTip`, `mathQuestion`, `id`, `question`,
`choices`, `answerIndex`, `answer`, `explanation`, `candidates`, `content`, `parts`, `text`):
none of them is defined on a prototype, so only an object that owns the key has it. -/
def readProp (v : JsVal) (key : JsString) : JsVal :=
  match v with
  | .obj props => (props.lookup key).getD .undefined
  | _ => .undefined

/-- The expression `v.key`: a `TypeError` when `v` is `undefined` or `null`. -/
def getProp (v : JsVal) (key : JsString) : Except JsError JsVal :=
  if isNullish v then .error .TypeError else .ok (readProp v key)

/-- Whether `Array.isArray` holds. -/
def isArray : JsVal → Bool
  | .arr _ => true
  | _ => false

/-- The elements of an array (used only on a value for which `isArray` holds). -/
def elements : JsVal → List JsVal
  | .arr items => items
  | _ => []

/-- The code units of a string value (used only on a value whose type is `string`). -/
def stringOf : JsVal → JsString
  | .str s => s
  | _ => []

/-- The comparison `v < k` on a value whose type is `number`. -/
def numLt (v : JsVal) (k : Int) : Bool :=
  match v with
  | .num n => n.ltInt k
  | _ => false

/-- The comparison `v > k` on a value whose type is `number`. -/
def numGt (v : JsVal) (k : Int) : Bool :=
  match v with
  | .num n => n.gtInt k
  | _ => false

/-- What the JavaScript runtime provides: `JSON.parse` (`none` when it throws a `SyntaxError`)
and the conversion to string `Array.prototype.join` applies to an element that is neither
`undefined`, `null` nor a string. -/
structure Runtime where
  jsonParse : JsString → Option JsVal
  toStringOf : JsVal → JsString

/-! ## Rate limiter -/

/-- The constant `RATE_LIMIT_WINDOW_MS`. -/
def RATE_LIMIT_WINDOW_MS : Int := 60 * 1000

/-- The constant `RATE_LIMIT_MAX_CALLS`. -/
def RATE_LIMIT_MAX_CALLS : Nat := 30

/-- The loop `while (callTimestamps.length && now - callTimestamps[0] > RATE_LIMIT_WINDOW_MS)
callTimestamps.shift()`. -/
def purgeExpired (now : Int) : List Int → List Int
  | [] => []
  | t :: rest => if now - t > RATE_LIMIT_WINDOW_MS then purgeExpired now rest else t :: rest

/-- The function `canCallAi`: `now` is the reading of `Date.now()`, `callTimestamps` the array
before the call; the result is the returned boolean and the array after the call. -/
def canCallAi (now : Int) (callTimestamps : List Int) : Bool × List Int :=
  let purged := purgeExpired now callTimestamps
  if purged.length ≥ RATE_LIMIT_MAX_CALLS then (false, purged)
  else (true, purged ++ [now])

/-- A run of `canCallAi` calls from the array `callTimestamps`, one call per clock reading:
the array after the run and the readings of the admitted calls, in order. -/
def runCalls (callTimestamps : List Int) : List Int → List Int × List Int
  | [] => (callTimestamps, [])
  | now :: rest =>
    let r := canCallAi now callTimestamps
    let out := runCalls r.2 rest
    (out.1, if r.1 then now :: out.2 else out.2)

/-- The array of timestamps after a run of calls that starts from the empty array. -/
def windowAfter (nows : List Int) : List Int := (runCalls [] nows).1

/-- The timestamps of the calls admitted during a run that starts from the empty array. -/
def admittedCalls (nows : List Int) : List Int := (runCalls [] nows).2

/-- The booleans returned by a run of `canCallAi` calls from the array `callTimestamps`. -/
def callResults (callTimestamps : List Int) : List Int → List Bool
  | [] => []
  | now :: rest =>
    let r := canCallAi now callTimestamps
    r.1 :: callResults r.2 rest

/-! ## Schema validators -/

/-- The condition of the `if` inside `payload.quiz.forEach`: `true` when the item is invalid.
The operands of `||` are evaluated in order; reading a property of `null` throws. -/
def quizItemInvalid (item : JsVal) : Except JsError Bool := do
  if typeOf item != .object then return true
  let id ← getProp item (lit "id")
  if typeOf id != .number then return true
  let question ← getProp item (lit "question")
  if typeOf question != .string then return true
  let choices ← getProp item (lit "choices")
  if !isArray choices then return true
  if (elements choices).length != 4 then return true
  if (elements choices).any (fun choice => typeOf choice != .string) then return true
  let answerIndex ← getProp item (lit "answerIndex")
  if typeOf answerIndex != .number then return true
  if numLt answerIndex 0 then return true
  if numGt answerIndex 3 then return true
  return false

/-- The message of the error thrown for the quiz item at `index` (0-based). -/
def quizItemMessage (index : Nat) : JsString :=
  lit "AI response quiz item " ++ natToJsString (index + 1) ++ lit " is invalid"

/-- The loop `payload.quiz.forEach((item, index) => ...)` from position `index` on. -/
def checkQuizItems : List JsVal → Nat → Except JsError Unit
  | [], _ => pure ()
  | item :: rest, index => do
    if (← quizItemInvalid item) then
      throw (.HttpError 502 (quizItemMessage index) none)
    checkQuizItems rest (index + 1)

/-- The function `validateDefaultPayload`. -/
def validateDefaultPayload (payload : JsVal) : Except JsError Unit := do
  let summary ← getProp payload (lit "summary")
  if !isArray summary || (elements summary).length != 3 ||
      !(elements summary).all (fun item => typeOf item == .string) then
    throw (.HttpError 502 (lit "AI response missing summary data") none)
  let quiz ← getProp payload (lit "quiz")
  if !isArray quiz || (elements quiz).length != 3 then
    throw (.HttpError 502 (lit "AI response missing quiz data") none)
  checkQuizItems (elements quiz) 0
  let studyTip ← getProp payload (lit "studyTip")
  if typeOf studyTip != .string || (jsTrim (stringOf studyTip)).isEmpty then
    throw (.HttpError 502 (lit "AI response missing study tip") none)

/-- The function `validateMathPayload`. -/
def validateMathPayload (payload : JsVal) : Except JsError Unit := do
  let mathQuestion ← getProp payload (lit "mathQuestion")
  if typeOf mathQuestion != .object then
    throw (.HttpError 502 (lit "AI response missing math question") none)
  let question ← getProp mathQuestion (lit "question")
  if typeOf question != .string then
    throw (.HttpError 502 (lit "AI math question is incomplete") none)
  let answer ← getProp mathQuestion (lit "answer")
  if typeOf answer != .string then
    throw (.HttpError 502 (lit "AI math question is incomplete") none)
  let explanation ← getProp mathQuestion (lit "explanation")
  if typeOf explanation != .string then
    throw (.HttpError 502 (lit "AI math question is incomplete") none)

/-! ## Model client -/

/-- What the outside world decides during a model call: the credential `process.env.AI_API_KEY`
(`none` when unset), the reading of `Date.now()` at each attempt, and the outcome of
`axios.post` at each attempt (the response data, or the message of the error it rejects
with).  Attempts are numbered from 1. -/
structure World where
  apiKey : Option JsString
  now : Nat → Int
  post : Nat → Except JsString JsVal

/-- The test `!apiKey`: the variable is unset or empty. -/
def apiKeyMissing (apiKey : Option JsString) : Bool :=
  match apiKey with
  | none => true
  | some key => key.isEmpty

/-- The function `callGemini`, for one request on its own: the result (the response data or the
thrown error) and the array of timestamps after the call. -/
def callGemini (w : World) (attempt : Nat) (callTimestamps : List Int) :
    Except JsError JsVal × List Int :=
  let admission := canCallAi (w.now attempt) callTimestamps
  if !admission.1 then
    (.error (.HttpError 429 (lit "AI rate limit exceeded, please retry shortly") none),
      admission.2)
  else if apiKeyMissing w.apiKey then
    (.error (.HttpError 500 (lit "AI_API_KEY is not configured") none), admission.2)
  else
    match w.post attempt with
    | .ok data => (.ok data, admission.2)
    | .error message =>
      if h : attempt ≥ 2 then
        (.error (.HttpError 502 (lit "Failed to generate study content") (some message)),
          admission.2)
      else callGemini w (attempt + 1) admission.2
termination_by 2 - attempt
decreasing_by omega

/-! ## Response extractor -/

/-- The expression `candidates[0]` on a value that is neither `undefined` nor `null`. -/
def firstElement : JsVal → JsVal
  | .arr (x :: _) => x
  | .str (c :: _) => .str [c]
  | .obj props => (props.lookup (lit "0")).getD .undefined
  | _ => .undefined

/-- The callback of `parts.map((part) => part.text)` over the parts, in order. -/
def partTexts : List JsVal → Except JsError (List JsVal)
  | [] => pure []
  | part :: rest => do
    let text ← getProp part (lit "text")
    let texts ← partTexts rest
    pure (text :: texts)

/-- The call `texts.join('')`: `undefined` and `null` count as the empty string, a string as
itself, any other element as its conversion to string. -/
def joinTexts (rt : Runtime) : List JsVal → JsString
  | [] => []
  | .undefined :: rest => joinTexts rt rest
  | .null :: rest => joinTexts rt rest
  | .str s :: rest => s ++ joinTexts rt rest
  | v :: rest => rt.toStringOf v ++ joinTexts rt rest

/-- The expression `response?.candidates?.[0]`. -/
def firstCandidate (response : JsVal) : JsVal :=
  if isNullish response then .undefined
  else
    let candidates := readProp response (lit "candidates")
    if isNullish candidates then .undefined else firstElement candidates

/-- The expression `candidate.content?.parts?.map((part) => part.text).join('').trim()` for a
truthy candidate: `none` is `undefined`; calling `map` on a value that is not an array throws. -/
def candidateText (rt : Runtime) (candidate : JsVal) : Except JsError (Option JsString) :=
  let content := readProp candidate (lit "content")
  if isNullish content then pure none
  else
    let parts := readProp content (lit "parts")
    if isNullish parts then pure none
    else
      match parts with
      | .arr items => do
        let texts ← partTexts items
        pure (some (jsTrim (joinTexts rt texts)))
      | _ => throw .TypeError

/-- The function `extractAiText`. -/
def extractAiText (rt : Runtime) (response : JsVal) : Except JsError JsString := do
  let candidate := firstCandidate response
  if !isTruthy candidate then
    throw (.HttpError 502 (lit "AI generation returned no candidates") none)
  let text ← candidateText rt candidate
  match text with
  | none => throw (.HttpError 502 (lit "AI generation returned empty content") none)
  | some t =>
    if t.isEmpty then throw (.HttpError 502 (lit "AI generation returned empty content") none)
    else pure t

/-! ## Fallback generator -/

/-- The three characters that follow the substitution in the template literal of `trimToWords`,
as the source file stores them. -/
def ellipsisMarker : JsString := lit "â€¦"

/-- The function `trimToWords`. -/
def trimToWords (text : JsString) (maxWords : Nat) : JsString :=
  let words := (splitWhitespace text).filter (fun w => !w.isEmpty)
  if words.length ≤ maxWords then jsTrim text
  else jsJoin (lit " ") (words.take maxWords) ++ ellipsisMarker

/-- The first loop of `buildFallbackSummary`, `while (bullets.length < 3 && index <
sentences.length)`: the second argument holds the sentences from `index` on. -/
def pushSentences : List JsString → List JsString → List JsString
  | bullets, [] => bullets
  | bullets, sentence :: rest =>
    if bullets.length < 3 then pushSentences (bullets ++ [trimToWords sentence 20]) rest
    else bullets

/-- The function `buildFallbackSummary`; the second loop pushes the filler until there are 3
bullets. -/
def buildFallbackSummary (wikiText : JsString) : List JsString :=
  let sentences := ((splitSentences wikiText).map jsTrim).filter (fun s => !s.isEmpty)
  let bullets := pushSentences [] sentences
  bullets ++ List.replicate (3 - bullets.length) (lit "Explore core ideas and definitions.")

/-- The function `sanitizeTopicName`. -/
def sanitizeTopicName (rawTopic : JsVal) : JsString :=
  match rawTopic with
  | .str s =>
    let cleaned := jsTrim (stripTemplates s)
    if cleaned.isEmpty then jsTrim s else cleaned
  | _ => []

/-- The array `generic` of `createDistractors`, by index. -/
def genericDistractors : Fin 4 → JsString
  | 0 => lit "It is a fundamental concept in mathematics."
  | 1 => lit "It relates to historical events and timelines."
  | 2 => lit "It involves scientific principles and experiments."
  | 3 => lit "It focuses on artistic expression and creativity."

/-- The closure `createDistractors`.  `generic.sort(() => Math.random() - 0.5)` reorders the
array; `shuffle` is the outcome: position `i` of the sorted array holds the element that was at
position `shuffle i`.  The argument `correctAnswer` is not used by the source. -/
def createDistractors (shuffle : Equiv.Perm (Fin 4)) (_correctAnswer : JsVal) : List JsVal :=
  let shuffled := List.ofFn (fun i => genericDistractors (shuffle i))
  (shuffled.take 3).map .str

/-- The outcomes of the three shuffles of one `buildFallbackQuiz` call, in call order. -/
structure Shuffles where
  first : Equiv.Perm (Fin 4)
  second : Equiv.Perm (Fin 4)
  third : Equiv.Perm (Fin 4)

/-- The expression `summary[i]` on an array of strings (`undefined` past the end). -/
def summaryAt (summary : List JsString) (i : Nat) : JsVal :=
  match summary.get? i with
  | some s => .str s
  | none => .undefined

/-- The function `buildFallbackQuiz`.  Its local `sentences` and `firstSentence` are computed
from strings without effect and never read, so they are left out. -/
def buildFallbackQuiz (sh : Shuffles) (topic : JsVal) (summary : List JsString)
    (_wikiText : JsString) : JsVal :=
  let safeTopic := sanitizeTopicName topic
  let distractorSet1 := createDistractors sh.first (summaryAt summary 0)
  let distractorSet2 := createDistractors sh.second (jsOr (summaryAt summary 1) (summaryAt summary 0))
  let distractorSet3 := createDistractors sh.third (jsOr (summaryAt summary 2) (summaryAt summary 0))
  .arr [
    .obj [
      (lit "id", .num (.fin 1 0)),
      (lit "question", .str (lit "Based on the information provided, which statement accurately describes " ++ safeTopic ++ lit "?")),
      (lit "choices", .arr (summaryAt summary 0 :: distractorSet1)),
      (lit "answerIndex", .num (.fin 0 0))],
    .obj [
      (lit "id", .num (.fin 2 0)),
      (lit "question", .str (lit "What is a key characteristic or aspect of " ++ safeTopic ++ lit "?")),
      (lit "choices", .arr (jsOr (summaryAt summary 1) (summaryAt summary 0) :: distractorSet2)),
      (lit "answerIndex", .num (.fin 0 0))],
    .obj [
      (lit "id", .num (.fin 3 0)),
      (lit "question", .str (lit "Which of the following is most relevant to understanding " ++ safeTopic ++ lit "?")),
      (lit "choices", .arr (jsOr (summaryAt summary 2) (summaryAt summary 0) :: distractorSet3)),
      (lit "answerIndex", .num (.fin 0 0))]]

/-- The function `buildFallbackMathQuestion`. -/
def buildFallbackMathQuestion (topic : JsString) : JsVal :=
  .obj [
    (lit "question", .str (lit "You plan to review 3 sections on " ++ topic ++
      lit ", each taking 15 minutes. How long will the study session take?")),
    (lit "answer", .str (lit "45 minutes")),
    (lit "explanation", .str (lit
      "Multiply the number of sections (3) by the time per section (15 minutes) to get 45 minutes total."))]

/-- The function `buildFallbackContent`, for a string `topic` and a string `wikiText`. -/
def buildFallbackContent (sh : Shuffles) (topic wikiText mode : JsString) : JsVal :=
  let summary := buildFallbackSummary wikiText
  let safeTopic := sanitizeTopicName (.str topic)
  if mode == lit "math" then
    .obj [(lit "mathQuestion", buildFallbackMathQuestion safeTopic)]
  else
    .obj [
      (lit "summary", .arr (summary.map .str)),
      (lit "quiz", buildFallbackQuiz sh (.str safeTopic) summary wikiText),
      (lit "studyTip", .str (lit "Review the main definitions of " ++ safeTopic ++
        lit " twice today."))]

/-! ## Orchestrator -/

/-- The first `try` block after the model call: `extractAiText` then `JSON.parse`. -/
def parseAiResponse (rt : Runtime) (aiResponse : JsVal) : Except JsError JsVal := do
  let rawText ← extractAiText rt aiResponse
  match rt.jsonParse rawText with
  | some parsed => pure parsed
  | none => throw .SyntaxError

/-- The second `try` block: validation for the mode, then the object that is returned. -/
def validatedPayload (parsed : JsVal) (mode : JsString) : Except JsError JsVal :=
  if mode == lit "math" then do
    validateMathPayload parsed
    let mathQuestion ← getProp parsed (lit "mathQuestion")
    pure (.obj [(lit "mathQuestion", mathQuestion)])
  else do
    validateDefaultPayload parsed
    let summary ← getProp parsed (lit "summary")
    let quiz ← getProp parsed (lit "quiz")
    let studyTip ← getProp parsed (lit "studyTip")
    pure (.obj [(lit "summary", summary), (lit "quiz", quiz), (lit "studyTip", studyTip)])

/-- The test `[502, 429, 404].includes(error.statusCode)`. -/
def isFallbackStatus (error : JsError) : Bool :=
  match error.statusCode with
  | some code => [502, 429, 404].contains code
  | none => false

/-- The body of `generateStudyContent` from the outcome `aiCall` of `await callGemini(system,
user)` on: the returned payload, or the error it throws.  The prompts only travel to the
network, whose outcome is an argument. -/
def generateStudyContentFrom (rt : Runtime) (sh : Shuffles) (aiCall : Except JsError JsVal)
    (topic wikiText mode : JsString) : Except JsError JsVal :=
  match aiCall with
  | .error error =>
    if isFallbackStatus error then .ok (buildFallbackContent sh topic wikiText mode)
    else .error error
  | .ok aiResponse =>
    match parseAiResponse rt aiResponse with
    | .error _ => .ok (buildFallbackContent sh topic wikiText mode)
    | .ok parsed =>
      match validatedPayload parsed mode with
      | .error _ => .ok (buildFallbackContent sh topic wikiText mode)
      | .ok payload => .ok payload

/-- The function `generateStudyContent`, for one request on its own: the returned payload or
the thrown error, and the array of timestamps after the call. -/
def generateStudyContent (rt : Runtime) (sh : Shuffles) (w : World) (callTimestamps : List Int)
    (topic wikiText mode : JsString) : Except JsError JsVal × List Int :=
  let call := callGemini w 1 callTimestamps
  (generateStudyContentFrom rt sh call.1 topic wikiText mode, call.2)

/-! ## The payload schema, as the specification words it -/

/-- Whether the value is an array of exactly `n` strings. -/
def isStringArray (n : Nat) (v : JsVal) : Bool :=
  match v with
  | .arr items => items.length == n && items.all (fun item => typeOf item == .string)
  | _ => false

/-- Whether the value is a number that satisfies `numOk`. -/
def isNumberWith (numOk : JsNum → Bool) (v : JsVal) : Bool :=
  match v with
  | .num n => numOk n
  | _ => false

/-- Whether the number lies in the interval `[0, 3]`. -/
def JsNum.inAnswerRange (n : JsNum) : Bool := !n.ltInt 0 && !n.gtInt 3

/-- A QuizItem of the specification, with the kind of number allowed for `id` and
`answerIndex` as a parameter: an object whose `id` is such a number, whose `question` is a
string, whose `choices` are exactly 4 strings and whose `answerIndex` is such a number in
`[0, 3]`. -/
def quizItemConforms (numOk : JsNum → Bool) (item : JsVal) : Bool :=
  match item with
  | .obj _ =>
    isNumberWith numOk (readProp item (lit "id")) &&
    typeOf (readProp item (lit "question")) == .string &&
    isStringArray 4 (readProp item (lit "choices")) &&
    isNumberWith (fun n => numOk n && n.inAnswerRange) (readProp item (lit "answerIndex"))
  | _ => false

/-- Whether the value is an array of exactly 3 conforming quiz items. -/
def isQuizArray (numOk : JsNum → Bool) (v : JsVal) : Bool :=
  match v with
  | .arr items => items.length == 3 && items.all (quizItemConforms numOk)
  | _ => false

/-- Whether the value is a non-empty string. -/
def isNonEmptyString (v : JsVal) : Bool :=
  match v with
  | .str s => !s.isEmpty
  | _ => false

/-- A DefaultPayload of the specification: an object with exactly the keys `summary` (exactly
3 strings), `quiz` (exactly 3 quiz items) and `studyTip` (a non-empty string). -/
def defaultPayloadConforms (numOk : JsNum → Bool) (payload : JsVal) : Bool :=
  match payload with
  | .obj [(k1, summary), (k2, quiz), (k3, studyTip)] =>
    k1 == lit "summary" && k2 == lit "quiz" && k3 == lit "studyTip" &&
    isStringArray 3 summary && isQuizArray numOk quiz && isNonEmptyString studyTip
  | _ => false

/-- A MathPayload of the specification: an object with exactly the key `mathQuestion`, an
object whose `question`, `answer` and `explanation` are strings. -/
def mathPayloadConforms (payload : JsVal) : Bool :=
  match payload with
  | .obj [(k, .obj props)] =>
    k == lit "mathQuestion" &&
    typeOf (readProp (.obj props) (lit "question")) == .string &&
    typeOf (readProp (.obj props) (lit "answer")) == .string &&
    typeOf (readProp (.obj props) (lit "explanation")) == .string
  | _ => false

/-- The schema of the specification for a mode, with integer `id` and `answerIndex`. -/
def specConforms (mode : JsString) (payload : JsVal) : Bool :=
  if mode == lit "math" then mathPayloadConforms payload
  else defaultPayloadConforms JsNum.isInteger payload

/-- The schema the validators enforce: as `specConforms`, with `id` and `answerIndex` any
number (`answerIndex` in `[0, 3]`). -/
def numericConforms (mode : JsString) (payload : JsVal) : Bool :=
  if mode == lit "math" then mathPayloadConforms payload
  else defaultPayloadConforms (fun _ => true) payload

/-! ## Concrete inputs of the examples -/

/-- The object `{id, question, choices, answerIndex}` with an integer `id`. -/
def quizItem (id : Int) (question : String) (choices : List String) (answerIndex : JsNum) :
    JsVal :=
  .obj [
    (lit "id", .num (.fin id 0)),
    (lit "question", .str (lit question)),
    (lit "choices", .arr (choices.map (fun choice => .str (lit choice)))),
    (lit "answerIndex", .num answerIndex)]

/-- A JSON text: a default payload whose first quiz item has `answerIndex` 1.5. -/
def fractionalText : JsString :=
  lit "\x7b\"summary\":[\"Sets collect objects.\",\"Sets have members.\",\"A set can be empty.\"]" ++
  lit ",\"quiz\":[\x7b\"id\":1,\"question\":\"What is a set?\",\"choices\":[\"A collection\",\"A number\",\"A proof\",\"A graph\"],\"answerIndex\":1.5\x7d" ++
  lit ",\x7b\"id\":2,\"question\":\"What is a member?\",\"choices\":[\"An element\",\"A subset\",\"A union\",\"A map\"],\"answerIndex\":0\x7d" ++
  lit ",\x7b\"id\":3,\"question\":\"Which set is empty?\",\"choices\":[\"The empty set\",\"The power set\",\"The unit set\",\"No set\"],\"answerIndex\":0\x7d]" ++
  lit ",\"studyTip\":\"Review set notation.\"\x7d"

/-- The `summary` of `fractionalText`, parsed. -/
def fractionalSummary : JsVal :=
  .arr [.str (lit "Sets collect objects."), .str (lit "Sets have members."), .str (lit "A set can be empty.")]

/-- The `quiz` of `fractionalText`, parsed. -/
def fractionalQuiz : JsVal :=
  .arr [
    quizItem 1 "What is a set?" ["A collection", "A number", "A proof", "A graph"] (.fin 3 1),
    quizItem 2 "What is a member?" ["An element", "A subset", "A union", "A map"] (.fin 0 0),
    quizItem 3 "Which set is empty?" ["The empty set", "The power set", "The unit set", "No set"] (.fin 0 0)]

/-- The value `JSON.parse` returns for `fractionalText`. -/
def fractionalParsed : JsVal :=
  .obj [
    (lit "summary", fractionalSummary),
    (lit "quiz", fractionalQuiz),
    (lit "studyTip", .str (lit "Review set notation."))]

/-- A JSON text: the model output of Scenario A, with the keys `status` and `topic`. -/
def photosynthesisText : JsString :=
  lit "\x7b\"status\":\"ok\"" ++
  lit ",\"topic\":\"Photosynthesis\"" ++
  lit ",\"summary\":[\"Plants use light.\",\"Chlorophyll absorbs energy.\",\"Produces oxygen.\"]" ++
  lit ",\"quiz\":[\x7b\"id\":1,\"question\":\"What do plants use?\",\"choices\":[\"Light\",\"Sound\",\"Heat\",\"Air\"],\"answerIndex\":0\x7d" ++
  lit ",\x7b\"id\":2,\"question\":\"Which pigment?\",\"choices\":[\"Chlorophyll\",\"Melanin\",\"Hemoglobin\",\"Keratin\"],\"answerIndex\":0\x7d" ++
  lit ",\x7b\"id\":3,\"question\":\"Result?\",\"choices\":[\"Oxygen\",\"Nitrogen\",\"Carbon\",\"Iron\"],\"answerIndex\":0\x7d]" ++
  lit ",\"studyTip\":\"Review the light-dependent reactions.\"\x7d"

/-- The `summary` of `photosynthesisText`, parsed. -/
def photosynthesisSummary : JsVal :=
  .arr [.str (lit "Plants use light."), .str (lit "Chlorophyll absorbs energy."), .str (lit "Produces oxygen.")]

/-- The `quiz` of `photosynthesisText`, parsed. -/
def photosynthesisQuiz : JsVal :=
  .arr [
    quizItem 1 "What do plants use?" ["Light", "Sound", "Heat", "Air"] (.fin 0 0),
    quizItem 2 "Which pigment?" ["Chlorophyll", "Melanin", "Hemoglobin", "Keratin"] (.fin 0 0),
    quizItem 3 "Result?" ["Oxygen", "Nitrogen", "Carbon", "Iron"] (.fin 0 0)]

/-- The value `JSON.parse` returns for `photosynthesisText`. -/
def photosynthesisParsed : JsVal :=
  .obj [
    (lit "status", .str (lit "ok")),
    (lit "topic", .str (lit "Photosynthesis")),
    (lit "summary", photosynthesisSummary),
    (lit "quiz", photosynthesisQuiz),
    (lit "studyTip", .str (lit "Review the light-dependent reactions."))]

/-- The payload `generateStudyContent` builds from `photosynthesisParsed`. -/
def photosynthesisPayload : JsVal :=
  .obj [
    (lit "summary", photosynthesisSummary),
    (lit "quiz", photosynthesisQuiz),
    (lit "studyTip", .str (lit "Review the light-dependent reactions."))]

/-- The response envelope of the generation service with one candidate and one part holding
`text`. -/
def envelope (text : JsString) : JsVal :=
  .obj [(lit "candidates", .arr [
    .obj [(lit "content", .obj [(lit "parts", .arr [.obj [(lit "text", .str text)]])])]])]

/-- A runtime whose `JSON.parse` is given on one text: it returns `value` for `text` (and is
taken to throw on any other text, which the examples never parse). -/
def runtimeParsing (text : JsString) (value : JsVal) : Runtime where
  jsonParse := fun s => if s == text then some value else none
  toStringOf := fun _ => lit "[object Object]"

/-- A runtime whose `JSON.parse` throws on the texts of the examples that use it (none of them
is a JSON text). -/
def runtimeRejecting : Runtime where
  jsonParse := fun _ => none
  toStringOf := fun _ => lit "[object Object]"

/-- A world with a credential, the clock at 0, and a network that answers with `response`. -/
def respondingWorld (response : JsVal) : World where
  apiKey := some (lit "secret")
  now := fun _ => 0
  post := fun _ => .ok response

/-- A world with a credential, the clock advancing by 6400 ms per attempt (the timeout and the
delay before the retry), and a network on which every attempt times out. -/
def timingOutWorld : World where
  apiKey := some (lit "secret")
  now := fun attempt => 6400 * attempt
  post := fun _ => .error (lit "timeout of 6000ms exceeded")

/-- A world without a credential. -/
def unconfiguredWorld : World where
  apiKey := none
  now := fun _ => 0
  post := fun _ => .error (lit "timeout of 6000ms exceeded")

/-- The shuffles that leave the array `generic` in its order. -/
def identityShuffles : Shuffles where
  first := Equiv.refl (Fin 4)
  second := Equiv.refl (Fin 4)
  third := Equiv.refl (Fin 4)

/-! ## Model client, with a record of the network attempts -/

/-- The function `callGemini` together with a record of its network attempts: the first
component is what `callGemini` computes, the second lists the attempt numbers at which
`axios.post` was issued, in order. -/
def callGeminiTraced (w : World) (attempt : Nat) (callTimestamps : List Int) :
    (Except JsError JsVal × List Int) × List Nat :=
  let admission := canCallAi (w.now attempt) callTimestamps
  if !admission.1 then
    ((.error (.HttpError 429 (lit "AI rate limit exceeded, please retry shortly") none),
      admission.2), [])
  else if apiKeyMissing w.apiKey then
    ((.error (.HttpError 500 (lit "AI_API_KEY is not configured") none), admission.2), [])
  else
    match w.post attempt with
    | .ok data => ((.ok data, admission.2), [attempt])
    | .error message =>
      if h : attempt ≥ 2 then
        ((.error (.HttpError 502 (lit "Failed to generate study content") (some message)),
          admission.2), [attempt])
      else
        let retry := callGeminiTraced w (attempt + 1) admission.2
        (retry.1, attempt :: retry.2)
termination_by 2 - attempt
decreasing_by omega

/-- The attempt numbers at which a `callGemini` call issues `axios.post`. -/
def networkAttempts (w : World) (callTimestamps : List Int) : List Nat :=
  (callGeminiTraced w 1 callTimestamps).2

/-! ## Encyclopedia client (`services/wiki.js`) -/

/-- The scan of `lastIndexOf`: `index` is the position of the head of the list and `last` the
last position seen so far that holds `c` (`-1` when there is none). -/
def lastIndexOfAux (c : Nat) : JsString → Nat → Int → Int
  | [], _, last => last
  | x :: rest, index, last => lastIndexOfAux c rest (index + 1) (if x == c then index else last)

/-- The method `String.prototype.lastIndexOf` for a one-character search string. -/
def lastIndexOf (s : JsString) (c : Nat) : Int := lastIndexOfAux c s 0 (-1)

/-- The function `trimContent`, on a string. -/
def trimContent (content : JsString) : JsString :=
  if content.isEmpty then []
  else
    let maxLength := 1100
    let minPreferred : Int := 800
    if content.length ≤ maxLength then content
    else
      let trimmed := content.take maxLength
      let lastSentenceBoundary := lastIndexOf trimmed 46
      if lastSentenceBoundary ≥ minPreferred then
        trimmed.take (lastSentenceBoundary + 1).toNat
      else trimmed

/-! ## The `/study` route (`routes/study.js`, `utils/response.js`, `index.js`) -/

/-- The query of a request: the values `req.query.topic` and `req.query.mode`.  Each is
`undefined` when the parameter is absent, a string when it is given once, and an array or an
object when it is repeated or written with brackets (`?mode=a&mode=b`). -/
structure StudyQuery where
  topic : JsVal
  mode : JsVal

/-- What the route is given from outside: the collaborators `fetchTopicSummary` and
`generateStudyContent` (each returns the value its promise resolves to, or the error it rejects
with), the method `String.prototype.toLowerCase`, the `message` property the runtime gives to
its own errors, and what the framework does when the promise of the handler rejects: it passes
the error to the error middleware (`forwardsRejections`) or leaves the request without a
response. -/
structure RouteEnv where
  fetchTopicSummary : JsString → Except JsError JsVal
  generateStudyContent : JsString → JsVal → JsString → Except JsError JsVal
  toLowerCase : JsString → JsString
  runtimeMessage : JsError → JsString
  forwardsRejections : Bool

/-- A call the route makes to a collaborator, with its arguments. -/
inductive RouteCall where
  | fetchTopicSummary (topic : JsString)
  | generateStudyContent (topic : JsString) (wikiText : JsVal) (mode : JsString)

/-- Setting the property `key` of an object: an existing key keeps its place. -/
def setProp (props : List (JsString × JsVal)) (key : JsString) (value : JsVal) :
    List (JsString × JsVal) :=
  if props.any (fun p => p.1 == key) then
    props.map (fun p => if p.1 == key then (key, value) else p)
  else props ++ [(key, value)]

/-- The own enumerable properties an object spread copies from a value. -/
def ownProps : JsVal → List (JsString × JsVal)
  | .obj props => props
  | .arr items => items.enum.map (fun p => (natToJsString p.1, p.2))
  | .str s => s.enum.map (fun p => (natToJsString p.1, .str [p.2]))
  | _ => []

/-- The object literal `{ ...base, ...value }` for the properties `base` already written.  The
list keeps the order of insertion; the order in which the runtime enumerates keys is not
observed by property reads. -/
def spreadInto (base : List (JsString × JsVal)) (value : JsVal) : List (JsString × JsVal) :=
  (ownProps value).foldl (fun acc p => setProp acc p.1 p.2) base

/-- The expression `req.query.topic?.trim()`: `none` is `undefined`; calling `trim` on a value
that is not a string throws. -/
def requestedTopic (query : StudyQuery) : Except JsError (Option JsString) :=
  match query.topic with
  | .undefined => .ok none
  | .null => .ok none
  | .str s => .ok (some (jsTrim s))
  | _ => .error .TypeError

/-- The expression `(req.query.mode || 'default').toLowerCase()`; calling `toLowerCase` on a
value that is not a string throws. -/
def requestedMode (env : RouteEnv) (query : StudyQuery) : Except JsError JsString :=
  match jsOr query.mode (.str (lit "default")) with
  | .str m => .ok (env.toLowerCase m)
  | _ => .error .TypeError

/-- How the handler ends: it calls `sendSuccess(res, body, 200)`, it passes an error to `next`
from its `catch`, or it throws outside its `try`, so that its promise rejects. -/
inductive RouteOutcome where
  | sent (body : JsVal)
  | forwarded (error : JsError)
  | rejected (error : JsError)

/-- The handler `router.get('/')` of `routes/study.js`: the calls made to the collaborators, in
order, and how the handler ends.  The topic and the mode are computed before the `try`. -/
def studyRoute (env : RouteEnv) (query : StudyQuery) : List RouteCall × RouteOutcome :=
  match requestedTopic query with
  | .error error => ([], .rejected error)
  | .ok topic =>
    match requestedMode env query with
    | .error error => ([], .rejected error)
    | .ok mode =>
      match topic with
      | none =>
        ([], .forwarded (.HttpError 400 (lit "Query parameter \"topic\" is required.") none))
      | some topic =>
        if topic.isEmpty then
          ([], .forwarded (.HttpError 400 (lit "Query parameter \"topic\" is required.") none))
        else if !([lit "default", lit "math"].contains mode) then
          ([], .forwarded (.HttpError 400 (lit "Invalid mode. Use \"default\" or \"math\".")
            none))
        else
          match env.fetchTopicSummary topic with
          | .error error => ([.fetchTopicSummary topic], .forwarded error)
          | .ok wikiContent =>
            if !isTruthy wikiContent then
              ([.fetchTopicSummary topic],
                .forwarded (.HttpError 404 (lit "No data found for topic: " ++ topic) none))
            else
              match env.generateStudyContent topic wikiContent mode with
              | .error error =>
                ([.fetchTopicSummary topic, .generateStudyContent topic wikiContent mode],
                  .forwarded error)
              | .ok aiPayload =>
                ([.fetchTopicSummary topic, .generateStudyContent topic wikiContent mode],
                  .sent (.obj (spreadInto
                    [(lit "status", .str (lit "ok")), (lit "topic", .str topic)] aiPayload)))

/-- An HTTP response: what `res.status(statusCode).json(body)` sends. -/
structure HttpResponse where
  statusCode : Nat
  body : JsVal

/-- The property `error.message`. -/
def errorMessage (env : RouteEnv) (error : JsError) : JsString :=
  match error with
  | .HttpError _ message _ => message
  | other => env.runtimeMessage other

/-- The function `sendError` of `utils/response.js`. -/
def sendError (env : RouteEnv) (error : JsError) : HttpResponse :=
  let statusCode :=
    match error.statusCode with
    | some code => if code != 0 then code else 500
    | none => 500
  let message :=
    if (errorMessage env error).isEmpty then lit "Internal Server Error"
    else errorMessage env error
  let body := [(lit "status", JsVal.str (lit "error")), (lit "message", JsVal.str message)]
  match error with
  | .HttpError _ _ (some cause) =>
    ⟨statusCode, .obj (body ++ [(lit "details", .obj [(lit "cause", .str cause)])])⟩
  | _ => ⟨statusCode, .obj body⟩

/-- The response to a request to `/study`, if one is sent: `sendSuccess` with status 200 on
success; the error middleware of `index.js`, which calls `sendError`, on an error passed to
`next`; and for an error thrown outside the `try`, the error middleware when the framework
forwards rejections and no response otherwise. -/
def studyResponse (env : RouteEnv) (query : StudyQuery) : Option HttpResponse :=
  match (studyRoute env query).2 with
  | .sent body => some ⟨200, body⟩
  | .forwarded error => some (sendError env error)
  | .rejected error => if env.forwardsRejections then some (sendError env error) else none

/-- The calls to the collaborators made while handling a request to `/study`. -/
def studyCalls (env : RouteEnv) (query : StudyQuery) : List RouteCall :=
  (studyRoute env query).1

/-! ## The response envelope and the template sequences, as the specification words them -/

/-- The value `candidate` is the first candidate of the response: the first element of the
array `candidates`, or, for a `candidates` that is a string or an object, its property `0`. -/
def IsFirstCandidate (response candidate : JsVal) : Prop :=
  (∃ rest, readProp response (lit "candidates") = .arr (candidate :: rest)) ∨
  (∃ c rest, readProp response (lit "candidates") = .str (c :: rest) ∧ candidate = .str [c]) ∨
  (∃ props, readProp response (lit "candidates") = .obj props ∧
    props.lookup (lit "0") = some candidate)

/-- The response has a first candidate whose content holds the array `parts`, the `text` of
every part can be read (no part is `undefined` or `null`), and `texts` lists these properties
in order. -/
def FirstCandidateTexts (response : JsVal) (texts : List JsVal) : Prop :=
  ∃ candidate parts,
    IsFirstCandidate response candidate ∧ isTruthy candidate = true ∧
    readProp (readProp candidate (lit "content")) (lit "parts") = .arr parts ∧
    (∀ part ∈ parts, isNullish part = false) ∧
    texts = parts.map (fun part => readProp part (lit "text"))

/-- The text one element contributes to a concatenation: a string contributes itself,
`undefined` and `null` nothing, any other value its conversion to string. -/
def elementText (rt : Runtime) : JsVal → JsString
  | .str s => s
  | .undefined => []
  | .null => []
  | v => rt.toStringOf v

/-- The texts concatenated in order. -/
def concatenation (rt : Runtime) (texts : List JsVal) : JsString :=
  (texts.map (elementText rt)).flatten

/-- The string `text` is `whole` without its leading and trailing whitespace. -/
def IsTrimOf (text whole : JsString) : Prop :=
  ∃ before after : JsString,
    whole = before ++ text ++ after ∧
    (∀ c ∈ before, isWhitespace c = true) ∧ (∀ c ∈ after, isWhitespace c = true) ∧
    (∀ c, text.head? = some c → isWhitespace c = false) ∧
    (∀ c, text.getLast? = some c → isWhitespace c = false)

/-- The string contains a sequence of the form `$`, `{`, one or more characters other than
`}`, then `}`. -/
def ContainsTemplate (s : JsString) : Prop :=
  ∃ before inner after : JsString,
    s = before ++ [36, 123] ++ inner ++ [125] ++ after ∧ inner ≠ [] ∧ 125 ∉ inner

/-- The words of a string: its maximal runs of characters that are not whitespace. -/
def wordsOf (text : JsString) : List JsString :=
  (splitWhitespace text).filter (fun w => !w.isEmpty)

/-- A fallback quiz item, as the specification words it: the given `id`, `answerIndex` 0, the
summary bullet as first choice, and 3 distinct statements of the pool of 4 as the other
choices. -/
def FallbackItem (item : JsVal) (id : Int) (bullet : JsString) : Prop :=
  readProp item (lit "id") = .num (.fin id 0) ∧
  readProp item (lit "answerIndex") = .num (.fin 0 0) ∧
  ∃ d1 d2 d3 : Fin 4,
    readProp item (lit "choices") =
      .arr [.str bullet, .str (genericDistractors d1), .str (genericDistractors d2),
        .str (genericDistractors d3)] ∧
    genericDistractors d1 ≠ genericDistractors d2 ∧
    genericDistractors d1 ≠ genericDistractors d3 ∧
    genericDistractors d2 ≠ genericDistractors d3

/-! ## Concrete inputs of the examples on the extractor, the fallback and the route -/

/-- The topic `$${a}{b}x`: removing the sequence that starts at its second
character leaves a new sequence of the same form. -/
def doubledTemplateTopic : JsString := lit "$$\x7ba\x7d\x7bb\x7dx"

/-- A source text made of the first statement of the pool of `createDistractors`. -/
def poolSentenceText : JsString := lit "It is a fundamental concept in mathematics."

/-- The method `toLowerCase` on the characters `A` to `Z`; other characters are kept (the
examples lower-case only strings of ASCII letters). -/
def asciiLowerCase (s : JsString) : JsString :=
  s.map (fun c => if 65 ≤ c ∧ c ≤ 90 then c + 32 else c)

/-- The collaborators of the test "returns study content for valid topic" of
`tests/study.test.js`: `fetchTopicSummary` resolves to a sentence on photosynthesis and
`generateStudyContent` to the payload of that test.  The framework leaves a request whose
handler rejects without a response. -/
def photosynthesisEnv : RouteEnv where
  fetchTopicSummary := fun _ => .ok (.str (lit "Photosynthesis is a process used by plants..."))
  generateStudyContent := fun _ _ _ => .ok photosynthesisPayload
  toLowerCase := asciiLowerCase
  runtimeMessage := fun _ => lit "req.query.mode.toLowerCase is not a function"
  forwardsRejections := false

/-- The environment `photosynthesisEnv` under a framework that passes the error of a rejected
handler to the error middleware. -/
def forwardingEnv : RouteEnv where
  fetchTopicSummary := photosynthesisEnv.fetchTopicSummary
  generateStudyContent := photosynthesisEnv.generateStudyContent
  toLowerCase := asciiLowerCase
  runtimeMessage := photosynthesisEnv.runtimeMessage
  forwardsRejections := true

/-- The query of `GET /study?mode=a&mode=b`: no topic, and a mode given twice, which the query
parser turns into an array. -/
def repeatedModeQuery : StudyQuery where
  topic := .undefined
  mode := .arr [.str (lit "a"), .str (lit "b")]

/-- The first 20 words of `longSentence`, joined by single spaces. -/
def longSentenceStart : JsString :=
  lit "The quick brown fox jumps over the lazy dog and then runs far away " ++
  lit "across the wide green field before"

/-- A sentence of 23 words. -/
def longSentence : JsString := longSentenceStart ++ lit " it finally rests."

/-- A source text of three sentences, the first being `longSentence`. -/
def longSentenceText : JsString := longSentence ++ lit " It sleeps!  Then it wakes?"

/-- The ellipsis character U+2026. -/
def ellipsisCharacter : JsString := [8230]

/-- A response envelope whose first candidate has two parts, with the texts " Hello, " and
"world. ", and a second candidate. -/
def twoPartEnvelope : JsVal :=
  .obj [(lit "candidates", .arr [
    .obj [(lit "content", .obj [(lit "parts", .arr [
      .obj [(lit "text", .str (lit " Hello, "))],
      .obj [(lit "text", .str (lit "world. "))]])])],
    .obj [(lit "content", .obj [(lit "parts", .arr [
      .obj [(lit "text", .str (lit "other"))]])])]])]

/-! # Properties -/

set_option maxRecDepth 8192

/-! ## Values -/

theorem typeOf_obj (props : List (JsString × JsVal)) : typeOf (.obj props) = .object := rfl
theorem typeOf_arr (items : List JsVal) : typeOf (.arr items) = .object := rfl
theorem typeOf_str (s : JsString) : typeOf (.str s) = .string := rfl
theorem typeOf_num (n : JsNum) : typeOf (.num n) = .number := rfl

theorem readProp_arr (items : List JsVal) (key : JsString) :
    readProp (.arr items) key = .undefined := rfl

theorem typeOf_eq_string {v : JsVal} (h : typeOf v = .string) : ∃ s, v = .str s := by
  cases v <;> simp [typeOf] at h
  exact ⟨_, rfl⟩

theorem typeOf_eq_number {v : JsVal} (h : typeOf v = .number) : ∃ n, v = .num n := by
  cases v <;> simp [typeOf] at h
  exact ⟨_, rfl⟩

theorem isArray_eq_true {v : JsVal} (h : isArray v = true) : ∃ items, v = .arr items := by
  cases v <;> simp [isArray] at h
  exact ⟨_, rfl⟩

/-- On an object, `quizItemInvalid` does not throw and is the disjunction of the source. -/
theorem quizItemInvalid_obj (props : List (JsString × JsVal)) :
    quizItemInvalid (.obj props) = .ok (
      typeOf (readProp (.obj props) (lit "id")) != .number ||
      typeOf (readProp (.obj props) (lit "question")) != .string ||
      !isArray (readProp (.obj props) (lit "choices")) ||
      (elements (readProp (.obj props) (lit "choices"))).length != 4 ||
      (elements (readProp (.obj props) (lit "choices"))).any (fun choice => typeOf choice != .string) ||
      typeOf (readProp (.obj props) (lit "answerIndex")) != .number ||
      numLt (readProp (.obj props) (lit "answerIndex")) 0 ||
      numGt (readProp (.obj props) (lit "answerIndex")) 3) := by
  simp only [quizItemInvalid, getProp, isNullish, bind, Except.bind, pure, Except.pure, typeOf_obj,
    Bool.false_eq_true, if_false, bne_self_eq_false]
  split_ifs <;> simp_all

theorem isStringArray_iff (n : Nat) (v : JsVal) :
    isStringArray n v = true ↔
      isArray v = true ∧ (elements v).length = n ∧
        (elements v).any (fun c => typeOf c != .string) = false := by
  cases v <;> simp [isStringArray, isArray, elements]

theorem quizItemInvalid_false {item : JsVal} (h : quizItemInvalid item = .ok false) :
    quizItemConforms (fun _ => true) item = true := by
  cases item with
  | obj props =>
    rw [quizItemInvalid_obj] at h
    simp only [Except.ok.injEq, Bool.or_eq_false_iff, bne_eq_false_iff_eq, Bool.not_eq_false'] at h
    obtain ⟨⟨⟨⟨⟨⟨⟨h1, h2⟩, h3⟩, h4⟩, h5⟩, h6⟩, h7⟩, h8⟩ := h
    simp only [quizItemConforms, Bool.and_eq_true, beq_iff_eq]
    refine ⟨⟨⟨?_, h2⟩, ?_⟩, ?_⟩
    · obtain ⟨n, hn⟩ := typeOf_eq_number h1
      simp [hn, isNumberWith]
    · exact (isStringArray_iff 4 _).2 ⟨h3, h4, h5⟩
    · obtain ⟨n, hn⟩ := typeOf_eq_number h6
      rw [hn] at h7 h8
      simp only [numLt, numGt] at h7 h8
      simp [hn, isNumberWith, JsNum.inAnswerRange, h7, h8]
  | null => simp [quizItemInvalid, typeOf, getProp, isNullish, bind, Except.bind, pure, Except.pure] at h
  | undefined => simp [quizItemInvalid, typeOf, pure, Except.pure] at h
  | bool b => simp [quizItemInvalid, typeOf, pure, Except.pure] at h
  | num n => simp [quizItemInvalid, typeOf, pure, Except.pure] at h
  | str s => simp [quizItemInvalid, typeOf, pure, Except.pure] at h
  | arr items =>
    simp [quizItemInvalid, typeOf, getProp, isNullish, bind, Except.bind, readProp,
      pure, Except.pure] at h

theorem checkQuizItems_ok {items : List JsVal} {index : Nat}
    (h : checkQuizItems items index = .ok ()) :
    ∀ item ∈ items, quizItemInvalid item = .ok false := by
  induction items generalizing index with
  | nil => simp
  | cons item rest ih =>
    simp only [checkQuizItems, bind, Except.bind] at h
    cases hq : quizItemInvalid item with
    | error e => simp [hq] at h
    | ok b =>
      cases b with
      | true => simp [hq, throw, throwThe, MonadExceptOf.throw] at h
      | false =>
        simp only [hq, Bool.false_eq_true, if_false, pure, Except.pure] at h
        intro x hx
        rcases List.mem_cons.1 hx with rfl | hx
        · exact hq
        · exact ih h x hx

/-- What an accepted default payload looks like. -/
theorem validateDefaultPayload_ok {payload : JsVal} (h : validateDefaultPayload payload = .ok ()) :
    isNullish payload = false ∧
    isStringArray 3 (readProp payload (lit "summary")) = true ∧
    isQuizArray (fun _ => true) (readProp payload (lit "quiz")) = true ∧
    (∃ tip, readProp payload (lit "studyTip") = .str tip ∧ jsTrim tip ≠ []) := by
  cases hn : isNullish payload with
  | true => simp [validateDefaultPayload, getProp, hn, bind, Except.bind] at h
  | false =>
    simp only [validateDefaultPayload, getProp, hn, bind, Except.bind, Bool.false_eq_true,
      if_false, pure, Except.pure, throw, throwThe, MonadExceptOf.throw] at h
    split_ifs at h with h1 h2 h3
    · cases hc : checkQuizItems (elements (readProp payload (lit "quiz"))) 0 <;> simp [hc] at h
    · have hc : checkQuizItems (elements (readProp payload (lit "quiz"))) 0 = .ok () := by
        cases hc : checkQuizItems (elements (readProp payload (lit "quiz"))) 0 with
        | error e => simp [hc] at h
        | ok u => rfl
      simp only [Bool.or_eq_true, Bool.not_eq_true', bne_iff_ne, ne_eq, not_or, not_not,
        Bool.not_eq_false, List.isEmpty_iff, Bool.not_eq_true] at h1 h2 h3
      refine ⟨rfl, ?_, ?_, ?_⟩
      · rw [isStringArray_iff]
        refine ⟨h1.1.1, h1.1.2, ?_⟩
        have := h1.2
        simp only [List.all_eq_true, beq_iff_eq] at this
        simp only [List.any_eq_false, bne_iff_ne, ne_eq, not_not]
        exact this
      · obtain ⟨items, hitems⟩ := isArray_eq_true h2.1
        rw [hitems] at h2 hc
        simp only [elements] at h2 hc
        simp only [hitems, isQuizArray, Bool.and_eq_true, beq_iff_eq, List.all_eq_true]
        exact ⟨h2.2, fun x hx => quizItemInvalid_false (checkQuizItems_ok hc x hx)⟩
      · obtain ⟨tip, htip⟩ := typeOf_eq_string h3.1
        refine ⟨tip, htip, ?_⟩
        have := h3.2
        rw [htip] at this
        simpa [stringOf] using this

/-- What an accepted math payload looks like. -/
theorem validateMathPayload_ok {payload : JsVal} (h : validateMathPayload payload = .ok ()) :
    isNullish payload = false ∧
    ∃ props, readProp payload (lit "mathQuestion") = .obj props ∧
      typeOf (readProp (.obj props) (lit "question")) = .string ∧
      typeOf (readProp (.obj props) (lit "answer")) = .string ∧
      typeOf (readProp (.obj props) (lit "explanation")) = .string := by
  cases hn : isNullish payload with
  | true => simp [validateMathPayload, getProp, hn, bind, Except.bind] at h
  | false =>
    refine ⟨rfl, ?_⟩
    simp only [validateMathPayload, getProp, hn, bind, Except.bind, Bool.false_eq_true,
      if_false, pure, Except.pure, throw, throwThe, MonadExceptOf.throw] at h
    cases hm : readProp payload (lit "mathQuestion") with
    | obj props =>
      refine ⟨props, rfl, ?_⟩
      simp only [hm, typeOf_obj, isNullish, bne_self_eq_false, Bool.false_eq_true, if_false] at h
      split_ifs at h with h1 h2 h3
      simp only [bne_iff_ne, ne_eq, not_not] at h1 h2 h3
      exact ⟨h1, h2, h3⟩
    | null => simp [hm, typeOf, isNullish] at h
    | undefined => simp [hm, typeOf] at h
    | bool b => simp [hm, typeOf] at h
    | num n => simp [hm, typeOf] at h
    | str s => simp [hm, typeOf] at h
    | arr items =>
      simp only [hm] at h
      simp [typeOf, isNullish, readProp_arr] at h

theorem validatedPayload_math_ok {parsed payload : JsVal}
    (h : validatedPayload parsed (lit "math") = .ok payload) :
    validateMathPayload parsed = .ok () ∧
      payload = .obj [(lit "mathQuestion", readProp parsed (lit "mathQuestion"))] := by
  have hm : (lit "math" == lit "math") = true := by decide
  simp only [validatedPayload, hm, if_true, bind, Except.bind] at h
  cases hv : validateMathPayload parsed with
  | error e => simp [hv] at h
  | ok u =>
    refine ⟨rfl, ?_⟩
    simp only [hv, getProp, (validateMathPayload_ok hv).1, Bool.false_eq_true, if_false, pure,
      Except.pure, Except.ok.injEq] at h
    exact h.symm

theorem validatedPayload_default_ok {parsed payload : JsVal} {mode : JsString}
    (hmode : (mode == lit "math") = false)
    (h : validatedPayload parsed mode = .ok payload) :
    validateDefaultPayload parsed = .ok () ∧
      payload = .obj [(lit "summary", readProp parsed (lit "summary")),
        (lit "quiz", readProp parsed (lit "quiz")),
        (lit "studyTip", readProp parsed (lit "studyTip"))] := by
  simp only [validatedPayload, hmode, Bool.false_eq_true, if_false, bind, Except.bind] at h
  cases hv : validateDefaultPayload parsed with
  | error e => simp [hv] at h
  | ok u =>
    refine ⟨rfl, ?_⟩
    simp only [hv, getProp, (validateDefaultPayload_ok hv).1, Bool.false_eq_true, if_false, pure,
      Except.pure, Except.ok.injEq] at h
    exact h.symm

/-- A payload returned after validation conforms to the schema the validators enforce. -/
theorem validatedPayload_conforms {parsed payload : JsVal} {mode : JsString}
    (h : validatedPayload parsed mode = .ok payload) : numericConforms mode payload = true := by
  cases hmode : (mode == lit "math") with
  | true =>
    have hm : mode = lit "math" := by simpa using hmode
    subst hm
    obtain ⟨hv, rfl⟩ := validatedPayload_math_ok h
    obtain ⟨_, props, hp, h1, h2, h3⟩ := validateMathPayload_ok hv
    simp only [numericConforms, hmode, if_true, hp, mathPayloadConforms, h1, h2, h3]
    decide
  | false =>
    obtain ⟨hv, rfl⟩ := validatedPayload_default_ok hmode h
    obtain ⟨_, h1, h2, tip, h3, h4⟩ := validateDefaultPayload_ok hv
    have hne : tip ≠ [] := by
      rintro rfl
      exact h4 rfl
    simp only [numericConforms, hmode, Bool.false_eq_true, if_false, defaultPayloadConforms, h1,
      h2, h3, isNonEmptyString]
    simp [hne]

/-! ## Fallback generator -/

theorem pushSentences_length_le (bullets sentences : List JsString) (h : bullets.length ≤ 3) :
    (pushSentences bullets sentences).length ≤ 3 := by
  induction sentences generalizing bullets with
  | nil => simpa [pushSentences] using h
  | cons s rest ih =>
    simp only [pushSentences]
    split_ifs with hlt
    · apply ih
      simp only [List.length_append, List.length_singleton]
      omega
    · exact h

theorem buildFallbackSummary_length (wikiText : JsString) :
    (buildFallbackSummary wikiText).length = 3 := by
  simp only [buildFallbackSummary, List.length_append, List.length_replicate]
  have := pushSentences_length_le []
    (((splitSentences wikiText).map jsTrim).filter (fun s => !s.isEmpty)) (by simp)
  omega

theorem buildFallbackSummary_eq (wikiText : JsString) :
    ∃ a b c, buildFallbackSummary wikiText = [a, b, c] := by
  have h := buildFallbackSummary_length wikiText
  match hs : buildFallbackSummary wikiText, h with
  | [a, b, c], _ => exact ⟨a, b, c, rfl⟩

theorem mem_dropWhile_of_false {p : Nat → Bool} {c : Nat} :
    ∀ {l : List Nat}, c ∈ l → p c = false → c ∈ l.dropWhile p
  | x :: rest, hc, hp => by
    rw [List.dropWhile_cons]
    split_ifs with hx
    · rcases List.mem_cons.1 hc with rfl | hmem
      · simp [hp] at hx
      · exact mem_dropWhile_of_false hmem hp
    · exact hc

theorem jsTrim_ne_nil {s : JsString} {c : Nat} (hc : c ∈ s) (hw : isWhitespace c = false) :
    jsTrim s ≠ [] := by
  have h1 : c ∈ (s.dropWhile isWhitespace).reverse :=
    List.mem_reverse.2 (mem_dropWhile_of_false hc hw)
  have h2 := mem_dropWhile_of_false h1 hw
  intro h
  simp only [jsTrim, List.reverse_eq_nil_iff] at h
  rw [h] at h2
  simp at h2

theorem createDistractors_eq (shuffle : Equiv.Perm (Fin 4)) (v : JsVal) :
    createDistractors shuffle v =
      [.str (genericDistractors (shuffle 0)), .str (genericDistractors (shuffle 1)),
        .str (genericDistractors (shuffle 2))] := by
  rfl

theorem jsOr_str (s t : JsString) : ∃ r, jsOr (.str s) (.str t) = .str r := by
  unfold jsOr
  split_ifs
  · exact ⟨s, rfl⟩
  · exact ⟨t, rfl⟩

theorem isArray_arr (items : List JsVal) : isArray (.arr items) = true := rfl

theorem elements_arr (items : List JsVal) : elements (.arr items) = items := rfl

theorem checkQuizItems_of_valid {items : List JsVal} (index : Nat)
    (h : ∀ item ∈ items, quizItemInvalid item = .ok false) :
    checkQuizItems items index = .ok () := by
  induction items generalizing index with
  | nil => rfl
  | cons item rest ih =>
    have h1 := h item (List.mem_cons_self _ _)
    simp only [checkQuizItems, bind, Except.bind, h1, Bool.false_eq_true, if_false, pure,
      Except.pure]
    exact ih _ (fun x hx => h x (List.mem_cons_of_mem _ hx))

/-- A payload with the right shape is accepted by `validateDefaultPayload`. -/
theorem validateDefaultPayload_of_valid {payload : JsVal} {items : List JsVal} {tip : JsString}
    (hn : isNullish payload = false)
    (hs : isStringArray 3 (readProp payload (lit "summary")) = true)
    (hq : readProp payload (lit "quiz") = .arr items) (hlen : items.length = 3)
    (hitems : ∀ item ∈ items, quizItemInvalid item = .ok false)
    (ht : readProp payload (lit "studyTip") = .str tip) (htrim : jsTrim tip ≠ []) :
    validateDefaultPayload payload = .ok () := by
  obtain ⟨h1, h2, h3⟩ := (isStringArray_iff 3 _).1 hs
  have h3' : (elements (readProp payload (lit "summary"))).all
      (fun item => typeOf item == .string) = true := by
    simp only [List.any_eq_false, bne_iff_ne, ne_eq, not_not] at h3
    simpa [List.all_eq_true] using h3
  simp only [validateDefaultPayload, getProp, hn, bind, Except.bind, Bool.false_eq_true, if_false,
    pure, Except.pure, throw, throwThe, MonadExceptOf.throw, h1, h2, h3', hq, isArray_arr, elements_arr,
    hlen, checkQuizItems_of_valid 0 hitems, ht, typeOf_str, stringOf]
  simp [htrim]

theorem buildFallbackContent_default_valid (sh : Shuffles) (topic wikiText mode : JsString)
    (hmode : (mode == lit "math") = false) :
    validateDefaultPayload (buildFallbackContent sh topic wikiText mode) = .ok () := by
  obtain ⟨a, b, c, hs⟩ := buildFallbackSummary_eq wikiText
  obtain ⟨b', hb⟩ := jsOr_str b a
  obtain ⟨c', hc⟩ := jsOr_str c a
  simp only [buildFallbackContent, hmode, Bool.false_eq_true, if_false, hs]
  refine validateDefaultPayload_of_valid rfl ?_ rfl ?_ ?_ rfl ?_
  · rfl
  · rfl
  · have h0 : summaryAt [a, b, c] 0 = .str a := rfl
    have h1 : summaryAt [a, b, c] 1 = .str b := rfl
    have h2 : summaryAt [a, b, c] 2 = .str c := rfl
    intro item hitem
    simp only [List.mem_cons, List.mem_singleton, List.not_mem_nil, or_false] at hitem
    rcases hitem with rfl | rfl | rfl
    · rw [quizItemInvalid_obj, h0, createDistractors_eq]; rfl
    · rw [quizItemInvalid_obj, h1, h0, hb, createDistractors_eq]; rfl
    · rw [quizItemInvalid_obj, h2, h0, hc, createDistractors_eq]; rfl
  · apply jsTrim_ne_nil (c := 82)
    · simp [lit]
    · rfl

theorem buildFallbackContent_math_valid (sh : Shuffles) (topic wikiText : JsString) :
    validateMathPayload (buildFallbackContent sh topic wikiText (lit "math")) = .ok () := by
  rfl

theorem quizItemConforms_mk (numOk : JsNum → Bool) (id answerIndex : Int)
    (question c0 c1 c2 c3 : JsString)
    (hid : numOk (.fin id 0) = true) (hanswer : numOk (.fin answerIndex 0) = true)
    (h0 : 0 ≤ answerIndex) (h3 : answerIndex ≤ 3) :
    quizItemConforms numOk (.obj [
      (lit "id", .num (.fin id 0)),
      (lit "question", .str question),
      (lit "choices", .arr [.str c0, .str c1, .str c2, .str c3]),
      (lit "answerIndex", .num (.fin answerIndex 0))]) = true := by
  have r1 : readProp (.obj [
      (lit "id", .num (.fin id 0)),
      (lit "question", .str question),
      (lit "choices", .arr [.str c0, .str c1, .str c2, .str c3]),
      (lit "answerIndex", .num (.fin answerIndex 0))]) (lit "id") = .num (.fin id 0) := rfl
  have r2 : readProp (.obj [
      (lit "id", .num (.fin id 0)),
      (lit "question", .str question),
      (lit "choices", .arr [.str c0, .str c1, .str c2, .str c3]),
      (lit "answerIndex", .num (.fin answerIndex 0))]) (lit "question") = .str question := rfl
  have r3 : readProp (.obj [
      (lit "id", .num (.fin id 0)),
      (lit "question", .str question),
      (lit "choices", .arr [.str c0, .str c1, .str c2, .str c3]),
      (lit "answerIndex", .num (.fin answerIndex 0))]) (lit "choices") =
        .arr [.str c0, .str c1, .str c2, .str c3] := rfl
  have r4 : readProp (.obj [
      (lit "id", .num (.fin id 0)),
      (lit "question", .str question),
      (lit "choices", .arr [.str c0, .str c1, .str c2, .str c3]),
      (lit "answerIndex", .num (.fin answerIndex 0))]) (lit "answerIndex") =
        .num (.fin answerIndex 0) := rfl
  simp only [quizItemConforms, r1, r2, r3, r4]
  have hlt : ¬ answerIndex < 0 := by omega
  have hgt : ¬ answerIndex > 3 := by omega
  simp [isNumberWith, hid, hanswer, typeOf, isStringArray, JsNum.inAnswerRange, JsNum.ltInt,
    JsNum.gtInt, hlt, hgt]

/-- The fallback payload of default mode conforms to the schema, whatever kind of number the
schema asks for, as long as integers qualify. -/
theorem buildFallbackContent_default_conforms (numOk : JsNum → Bool)
    (hint : ∀ k : Int, numOk (.fin k 0) = true)
    (sh : Shuffles) (topic wikiText mode : JsString) (hmode : (mode == lit "math") = false) :
    defaultPayloadConforms numOk (buildFallbackContent sh topic wikiText mode) = true := by
  obtain ⟨a, b, c, hs⟩ := buildFallbackSummary_eq wikiText
  obtain ⟨b', hb⟩ := jsOr_str b a
  obtain ⟨c', hc⟩ := jsOr_str c a
  have h0 : summaryAt [a, b, c] 0 = .str a := rfl
  have h1 : summaryAt [a, b, c] 1 = .str b := rfl
  have h2 : summaryAt [a, b, c] 2 = .str c := rfl
  have e1 : (lit "summary" == lit "summary") = true := by decide
  have e2 : (lit "quiz" == lit "quiz") = true := by decide
  have e3 : (lit "studyTip" == lit "studyTip") = true := by decide
  have htip : isNonEmptyString (.str (lit "Review the main definitions of " ++
      sanitizeTopicName (.str topic) ++ lit " twice today.")) = true := by
    simp [isNonEmptyString, lit]
  simp only [buildFallbackContent, hmode, Bool.false_eq_true, if_false, hs,
    defaultPayloadConforms, e1, e2, e3, htip, Bool.true_and, Bool.and_true, Bool.and_eq_true]
  refine ⟨rfl, ?_⟩
  simp only [buildFallbackQuiz, h0, h1, h2, hb, hc, createDistractors_eq, isQuizArray,
    List.all_cons, List.all_nil, Bool.and_true, Bool.and_eq_true]
  exact ⟨rfl, quizItemConforms_mk numOk 1 0 _ _ _ _ _ (hint 1) (hint 0) (by omega) (by omega),
    quizItemConforms_mk numOk 2 0 _ _ _ _ _ (hint 2) (hint 0) (by omega) (by omega),
    quizItemConforms_mk numOk 3 0 _ _ _ _ _ (hint 3) (hint 0) (by omega) (by omega)⟩

theorem isInteger_fin_zero (k : Int) : JsNum.isInteger (.fin k 0) = true := by
  simp [JsNum.isInteger]

theorem buildFallbackContent_specConforms (sh : Shuffles) (topic wikiText mode : JsString) :
    specConforms mode (buildFallbackContent sh topic wikiText mode) = true := by
  cases hmode : (mode == lit "math") with
  | true =>
    simp only [specConforms, buildFallbackContent, hmode, if_true]
    rfl
  | false =>
    simp only [specConforms, hmode, Bool.false_eq_true, if_false]
    exact buildFallbackContent_default_conforms _ isInteger_fin_zero sh topic wikiText mode hmode

theorem buildFallbackContent_conforms (sh : Shuffles) (topic wikiText mode : JsString) :
    numericConforms mode (buildFallbackContent sh topic wikiText mode) = true := by
  cases hmode : (mode == lit "math") with
  | true =>
    simp only [numericConforms, buildFallbackContent, hmode, if_true]
    rfl
  | false =>
    simp only [numericConforms, hmode, Bool.false_eq_true, if_false]
    exact buildFallbackContent_default_conforms _ (fun _ => rfl) sh topic wikiText mode hmode

/-! ## Model client -/

theorem callGemini_rejected (w : World) (attempt : Nat) (callTimestamps : List Int)
    (h : (canCallAi (w.now attempt) callTimestamps).1 = false) :
    callGemini w attempt callTimestamps =
      (.error (.HttpError 429 (lit "AI rate limit exceeded, please retry shortly") none),
        (canCallAi (w.now attempt) callTimestamps).2) := by
  rw [callGemini]
  simp [h]

theorem callGemini_unconfigured (w : World) (attempt : Nat) (callTimestamps : List Int)
    (h : (canCallAi (w.now attempt) callTimestamps).1 = true)
    (hkey : apiKeyMissing w.apiKey = true) :
    callGemini w attempt callTimestamps =
      (.error (.HttpError 500 (lit "AI_API_KEY is not configured") none),
        (canCallAi (w.now attempt) callTimestamps).2) := by
  rw [callGemini]
  simp [h, hkey]

theorem callGemini_ok (w : World) (attempt : Nat) (callTimestamps : List Int) (data : JsVal)
    (h : (canCallAi (w.now attempt) callTimestamps).1 = true)
    (hkey : apiKeyMissing w.apiKey = false) (hpost : w.post attempt = .ok data) :
    callGemini w attempt callTimestamps =
      (.ok data, (canCallAi (w.now attempt) callTimestamps).2) := by
  rw [callGemini]
  simp [h, hkey, hpost]

theorem callGemini_retry (w : World) (callTimestamps : List Int) (message : JsString)
    (h : (canCallAi (w.now 1) callTimestamps).1 = true)
    (hkey : apiKeyMissing w.apiKey = false) (hpost : w.post 1 = .error message) :
    callGemini w 1 callTimestamps =
      callGemini w 2 (canCallAi (w.now 1) callTimestamps).2 := by
  rw [callGemini]
  simp [h, hkey, hpost]

theorem callGemini_exhausted (w : World) (attempt : Nat) (callTimestamps : List Int)
    (message : JsString) (hattempt : attempt ≥ 2)
    (h : (canCallAi (w.now attempt) callTimestamps).1 = true)
    (hkey : apiKeyMissing w.apiKey = false) (hpost : w.post attempt = .error message) :
    callGemini w attempt callTimestamps =
      (.error (.HttpError 502 (lit "Failed to generate study content") (some message)),
        (canCallAi (w.now attempt) callTimestamps).2) := by
  rw [callGemini]
  simp [h, hkey, hpost, hattempt]

/-! ## Orchestrator -/

/-- The outcomes of `generateStudyContentFrom`: the fallback, the validated payload, or the
rethrown error of the model call. -/
theorem generateStudyContentFrom_cases (rt : Runtime) (sh : Shuffles)
    (aiCall : Except JsError JsVal) (topic wikiText mode : JsString) :
    generateStudyContentFrom rt sh aiCall topic wikiText mode =
        .ok (buildFallbackContent sh topic wikiText mode) ∨
      (∃ parsed payload, validatedPayload parsed mode = .ok payload ∧
        generateStudyContentFrom rt sh aiCall topic wikiText mode = .ok payload) ∨
      (∃ error, aiCall = .error error ∧
        generateStudyContentFrom rt sh aiCall topic wikiText mode = .error error) := by
  unfold generateStudyContentFrom
  cases aiCall with
  | error error =>
    by_cases hf : isFallbackStatus error = true
    · left; simp [hf]
    · right; right; exact ⟨error, rfl, by simp [hf]⟩
  | ok aiResponse =>
    cases hp : parseAiResponse rt aiResponse with
    | error e => left; simp [hp]
    | ok parsed =>
      cases hv : validatedPayload parsed mode with
      | error e => left; simp [hp, hv]
      | ok payload => right; left; exact ⟨parsed, payload, hv, by simp [hp, hv]⟩

theorem generateStudyContentFrom_conforms {rt : Runtime} {sh : Shuffles}
    {aiCall : Except JsError JsVal} {topic wikiText mode : JsString} {payload : JsVal}
    (h : generateStudyContentFrom rt sh aiCall topic wikiText mode = .ok payload) :
    numericConforms mode payload = true := by
  rcases generateStudyContentFrom_cases rt sh aiCall topic wikiText mode with
    h1 | ⟨parsed, p, hv, h2⟩ | ⟨e, _, h3⟩
  · rw [h1] at h
    cases h
    exact buildFallbackContent_conforms sh topic wikiText mode
  · rw [h2] at h
    cases h
    exact validatedPayload_conforms hv
  · rw [h3] at h
    cases h

/-! ## Claims on the orchestrator and the fallback -/

/-- C1, counterexample: the model answers with `fractionalText`, a payload whose first quiz
item has `answerIndex` 1.5; the validator accepts it (1.5 is a number between 0 and 3) and
`generateStudyContent` returns it, although its `answerIndex` is not an integer. -/
theorem generateStudyContent_fractional_answerIndex :
    (generateStudyContent (runtimeParsing fractionalText fractionalParsed) identityShuffles
        (respondingWorld (envelope fractionalText)) [] (lit "Sets")
        (lit "A set is a collection of objects.") (lit "default")).1 = .ok fractionalParsed ∧
      specConforms (lit "default") fractionalParsed = false := by
  constructor
  · have hc := callGemini_ok (respondingWorld (envelope fractionalText)) 1 [] _ rfl rfl rfl
    unfold generateStudyContent
    rw [hc]
    rfl
  · rfl

/-- C1, amended: whenever `generateStudyContent` returns a payload, it conforms to the schema of
the mode with `id` and `answerIndex` numbers (not necessarily integers): in default mode exactly
the keys `summary` (3 strings), `quiz` (3 items with a number `id`, a string `question`, 4
string `choices`, a number `answerIndex` in `[0, 3]`) and `studyTip` (a non-empty string); in
math mode exactly the key `mathQuestion`, an object with strings `question`, `answer` and
`explanation`. -/
theorem generateStudyContent_conforms (rt : Runtime) (sh : Shuffles) (w : World)
    (callTimestamps : List Int) (topic wikiText mode : JsString) (payload : JsVal)
    (h : (generateStudyContent rt sh w callTimestamps topic wikiText mode).1 = .ok payload) :
    numericConforms mode payload = true :=
  generateStudyContentFrom_conforms h

/-- C1, witness: the payload returned for the model output of Scenario A. -/
theorem generateStudyContent_conforms_witness :
    (generateStudyContent (runtimeParsing photosynthesisText photosynthesisParsed)
        identityShuffles (respondingWorld (envelope photosynthesisText)) []
        (lit "Photosynthesis") (lit "Photosynthesis is a process used by plants...")
        (lit "default")).1 = .ok photosynthesisPayload ∧
      numericConforms (lit "default") photosynthesisPayload = true :=
  have h : (generateStudyContent (runtimeParsing photosynthesisText photosynthesisParsed)
        identityShuffles (respondingWorld (envelope photosynthesisText)) []
        (lit "Photosynthesis") (lit "Photosynthesis is a process used by plants...")
        (lit "default")).1 = .ok photosynthesisPayload := by
    have hc := callGemini_ok (respondingWorld (envelope photosynthesisText)) 1 [] _ rfl rfl rfl
    unfold generateStudyContent
    rw [hc]
    rfl
  ⟨h, generateStudyContent_conforms _ _ _ _ _ _ _ _ h⟩

/-- C2: for every topic string, source text string and shuffle outcome, the result of
`buildFallbackContent` (a total function: on strings it cannot throw) is accepted by
`validateDefaultPayload` in default mode and by `validateMathPayload` in math mode, and it
conforms to the schema of the mode: 3 summary strings, 3 quiz items with an integer `id`, 4
string choices and an integer `answerIndex` in `[0, 3]`, a non-empty `studyTip`; in math mode a
`mathQuestion` with strings `question`, `answer`, `explanation`. -/
theorem buildFallbackContent_valid (sh : Shuffles) (topic wikiText : JsString) :
    validateDefaultPayload (buildFallbackContent sh topic wikiText (lit "default")) = .ok () ∧
    validateMathPayload (buildFallbackContent sh topic wikiText (lit "math")) = .ok () ∧
    specConforms (lit "default") (buildFallbackContent sh topic wikiText (lit "default")) = true ∧
    specConforms (lit "math") (buildFallbackContent sh topic wikiText (lit "math")) = true :=
  ⟨buildFallbackContent_default_valid sh topic wikiText _ (by decide),
    buildFallbackContent_math_valid sh topic wikiText,
    buildFallbackContent_specConforms sh topic wikiText _,
    buildFallbackContent_specConforms sh topic wikiText _⟩

/-- C3: when the model call fails with an error whose status is 429, 502 or 404,
`generateStudyContent` returns `buildFallbackContent(topic, wikiText, mode)`; when it fails
with any other error (another status, or no status at all) it rethrows that same error.  The
first part is on any failure `error` of the awaited call, the second on the failures that
`callGemini` itself produces. -/
theorem generateStudyContent_call_failure (rt : Runtime) (sh : Shuffles)
    (topic wikiText mode : JsString) :
    (∀ error : JsError,
      generateStudyContentFrom rt sh (.error error) topic wikiText mode =
        if error.statusCode = some 429 ∨ error.statusCode = some 502 ∨
            error.statusCode = some 404
        then .ok (buildFallbackContent sh topic wikiText mode) else .error error) ∧
    (∀ (w : World) (callTimestamps : List Int) (error : JsError),
      (callGemini w 1 callTimestamps).1 = .error error →
      (generateStudyContent rt sh w callTimestamps topic wikiText mode).1 =
        if error.statusCode = some 429 ∨ error.statusCode = some 502 ∨
            error.statusCode = some 404
        then .ok (buildFallbackContent sh topic wikiText mode) else .error error) ∧
    (∀ (w : World) (callTimestamps : List Int),
      (canCallAi (w.now 1) callTimestamps).1 = false →
      (generateStudyContent rt sh w callTimestamps topic wikiText mode).1 =
        .ok (buildFallbackContent sh topic wikiText mode)) ∧
    (∀ (w : World) (callTimestamps : List Int) (message1 message2 : JsString),
      (canCallAi (w.now 1) callTimestamps).1 = true →
      (canCallAi (w.now 2) (canCallAi (w.now 1) callTimestamps).2).1 = true →
      apiKeyMissing w.apiKey = false →
      w.post 1 = .error message1 → w.post 2 = .error message2 →
      (generateStudyContent rt sh w callTimestamps topic wikiText mode).1 =
        .ok (buildFallbackContent sh topic wikiText mode)) := by
  have key : ∀ error : JsError,
      generateStudyContentFrom rt sh (.error error) topic wikiText mode =
        if error.statusCode = some 429 ∨ error.statusCode = some 502 ∨
            error.statusCode = some 404
        then .ok (buildFallbackContent sh topic wikiText mode) else .error error := by
    intro error
    cases error with
    | HttpError statusCode message cause =>
      simp only [generateStudyContentFrom, isFallbackStatus, JsError.statusCode,
        Option.some.injEq]
      by_cases h1 : statusCode = 429
      · simp [h1]
      · by_cases h2 : statusCode = 502
        · simp [h2]
        · by_cases h3 : statusCode = 404
          · simp [h3]
          · simp [h1, h2, h3]
    | TypeError => simp [generateStudyContentFrom, isFallbackStatus, JsError.statusCode]
    | SyntaxError => simp [generateStudyContentFrom, isFallbackStatus, JsError.statusCode]
  refine ⟨key, ?_, ?_, ?_⟩
  · intro w callTimestamps error h
    unfold generateStudyContent
    simp only [h]
    exact key error
  · intro w callTimestamps h
    unfold generateStudyContent
    rw [callGemini_rejected w 1 callTimestamps h]
    rfl
  · intro w callTimestamps message1 message2 h1 h2 hkey hp1 hp2
    unfold generateStudyContent
    rw [callGemini_retry w callTimestamps message1 h1 hkey hp1,
      callGemini_exhausted w 2 _ message2 (le_refl 2) h2 hkey hp2]
    rfl

/-- C3, witness: on `timingOutWorld` both attempts time out, `callGemini` fails with status 502
and the fallback payload is returned. -/
theorem generateStudyContent_call_failure_witness :
    (callGemini timingOutWorld 1 []).1 =
        .error (.HttpError 502 (lit "Failed to generate study content")
          (some (lit "timeout of 6000ms exceeded"))) ∧
      (generateStudyContent runtimeRejecting identityShuffles timingOutWorld []
        (lit "Sets") (lit "A set is a collection of objects.") (lit "default")).1 =
        .ok (buildFallbackContent identityShuffles (lit "Sets")
          (lit "A set is a collection of objects.") (lit "default")) :=
  have h : (callGemini timingOutWorld 1 []).1 =
      .error (.HttpError 502 (lit "Failed to generate study content")
        (some (lit "timeout of 6000ms exceeded"))) := by
    rw [callGemini_retry timingOutWorld [] _ rfl rfl rfl,
      callGemini_exhausted timingOutWorld 2 (canCallAi (timingOutWorld.now 1) []).2 _
        (le_refl 2) rfl rfl rfl]
  ⟨h, by
    simpa [JsError.statusCode] using
      (generateStudyContent_call_failure runtimeRejecting identityShuffles (lit "Sets")
        (lit "A set is a collection of objects.") (lit "default")).2.1 timingOutWorld [] _ h⟩

/-- C4, counterexample: with an empty window (the call is admitted) and no credential,
`generateStudyContent` throws the `HttpError` of status 500 to its caller: no fallback payload
is returned. -/
theorem generateStudyContent_unconfigured_throws :
    (canCallAi (unconfiguredWorld.now 1) []).1 = true ∧
      unconfiguredWorld.apiKey = none ∧
      (generateStudyContent runtimeRejecting identityShuffles unconfiguredWorld []
        (lit "Sets") (lit "A set is a collection of objects.") (lit "default")).1 =
        .error (.HttpError 500 (lit "AI_API_KEY is not configured") none) := by
  refine ⟨rfl, rfl, ?_⟩
  unfold generateStudyContent
  rw [callGemini_unconfigured unconfiguredWorld 1 [] rfl rfl]
  rfl

/-- C4, amended: when the rate limiter admits the call but no credential is configured (the
variable is unset or empty), `callGemini` throws an `HttpError` of status 500 with the message
"AI_API_KEY is not configured", and `generateStudyContent` rethrows it to the caller: the
failure is not recovered by the fallback. -/
theorem generateStudyContent_unconfigured (rt : Runtime) (sh : Shuffles) (w : World)
    (callTimestamps : List Int) (topic wikiText mode : JsString)
    (hpass : (canCallAi (w.now 1) callTimestamps).1 = true)
    (hkey : apiKeyMissing w.apiKey = true) :
    (generateStudyContent rt sh w callTimestamps topic wikiText mode).1 =
      .error (.HttpError 500 (lit "AI_API_KEY is not configured") none) := by
  unfold generateStudyContent
  rw [callGemini_unconfigured w 1 callTimestamps hpass hkey]
  rfl

/-- C4, witness: the world without a credential, from the empty window. -/
theorem generateStudyContent_unconfigured_witness :
    (canCallAi (unconfiguredWorld.now 1) []).1 = true ∧
      apiKeyMissing unconfiguredWorld.apiKey = true ∧
      (generateStudyContent runtimeRejecting identityShuffles unconfiguredWorld []
        (lit "Probability") (lit "Probability is the likelihood of events.")
        (lit "math")).1 = .error (.HttpError 500 (lit "AI_API_KEY is not configured") none) :=
  ⟨rfl, rfl, generateStudyContent_unconfigured _ _ _ _ _ _ _ rfl rfl⟩

/-- The validator `generateStudyContent` runs for a mode. -/
theorem validatedPayload_error_of_validator {parsed : JsVal} {mode : JsString} {error : JsError}
    (h : (if mode == lit "math" then validateMathPayload parsed
      else validateDefaultPayload parsed) = .error error) :
    ∃ e, validatedPayload parsed mode = .error e := by
  unfold validatedPayload
  split_ifs at h ⊢ with hm
  · exact ⟨error, by simp [bind, Except.bind, h]⟩
  · exact ⟨error, by simp [bind, Except.bind, h]⟩

/-- C5: when the model call returns a response from which text extraction fails, or whose
extracted text `JSON.parse` rejects, or whose parsed value makes the validator of the mode throw
(whatever the error), `generateStudyContent` returns `buildFallbackContent(topic, wikiText,
mode)`: no exception surfaces. -/
theorem generateStudyContent_bad_response (rt : Runtime) (sh : Shuffles) (w : World)
    (callTimestamps : List Int) (topic wikiText mode : JsString) (response : JsVal)
    (hcall : (callGemini w 1 callTimestamps).1 = .ok response)
    (hbad : (∃ error, extractAiText rt response = .error error) ∨
      (∃ text, extractAiText rt response = .ok text ∧ rt.jsonParse text = none) ∨
      (∃ text parsed error, extractAiText rt response = .ok text ∧
        rt.jsonParse text = some parsed ∧
        (if mode == lit "math" then validateMathPayload parsed
          else validateDefaultPayload parsed) = .error error)) :
    (generateStudyContent rt sh w callTimestamps topic wikiText mode).1 =
      .ok (buildFallbackContent sh topic wikiText mode) := by
  unfold generateStudyContent
  simp only [hcall, generateStudyContentFrom]
  rcases hbad with ⟨error, he⟩ | ⟨text, he, hp⟩ | ⟨text, parsed, error, he, hp, hv⟩
  · simp [parseAiResponse, he, bind, Except.bind]
  · simp [parseAiResponse, he, hp, bind, Except.bind, throw, throwThe, MonadExceptOf.throw]
  · obtain ⟨e, hve⟩ := validatedPayload_error_of_validator hv
    simp [parseAiResponse, he, hp, bind, Except.bind, pure, Except.pure, hve]

/-- C5, witness: the model answers with a sentence that is not JSON (Scenario D). -/
theorem generateStudyContent_bad_response_witness :
    (callGemini (respondingWorld (envelope (lit "Sorry, no JSON today."))) 1 []).1 =
        .ok (envelope (lit "Sorry, no JSON today.")) ∧
      extractAiText runtimeRejecting (envelope (lit "Sorry, no JSON today.")) =
        .ok (lit "Sorry, no JSON today.") ∧
      (generateStudyContent runtimeRejecting identityShuffles
        (respondingWorld (envelope (lit "Sorry, no JSON today."))) []
        (lit "Sets") (lit "A set is a collection of objects.") (lit "default")).1 =
        .ok (buildFallbackContent identityShuffles (lit "Sets")
          (lit "A set is a collection of objects.") (lit "default")) :=
  have hcall : (callGemini (respondingWorld (envelope (lit "Sorry, no JSON today."))) 1 []).1 =
      .ok (envelope (lit "Sorry, no JSON today.")) := by
    rw [callGemini_ok (respondingWorld (envelope (lit "Sorry, no JSON today."))) 1 [] _
      rfl rfl rfl]
  ⟨hcall, rfl, generateStudyContent_bad_response _ _ _ _ _ _ _ _ hcall
    (Or.inr (Or.inl ⟨lit "Sorry, no JSON today.", rfl, rfl⟩))⟩

theorem validatedPayload_of_valid {parsed : JsVal} {mode : JsString}
    (h : (if mode == lit "math" then validateMathPayload parsed
      else validateDefaultPayload parsed) = .ok ()) :
    validatedPayload parsed mode = .ok (
      if mode == lit "math" then
        .obj [(lit "mathQuestion", readProp parsed (lit "mathQuestion"))]
      else
        .obj [(lit "summary", readProp parsed (lit "summary")),
          (lit "quiz", readProp parsed (lit "quiz")),
          (lit "studyTip", readProp parsed (lit "studyTip"))]) := by
  unfold validatedPayload
  split_ifs at h ⊢ with hm
  · simp [bind, Except.bind, h, getProp, (validateMathPayload_ok h).1, pure, Except.pure]
  · simp [bind, Except.bind, h, getProp, (validateDefaultPayload_ok h).1, pure, Except.pure]

/-- C6: when the model call succeeds, its text parses and the parsed value passes the validator
of the mode, `generateStudyContent` returns an object with exactly the keys of the mode
(`mathQuestion` in math mode; `summary`, `quiz`, `studyTip` otherwise) holding the parsed
values unmodified; reading any other key of the returned object (such as `status` or `topic`)
gives `undefined`. -/
theorem generateStudyContent_validated (rt : Runtime) (sh : Shuffles) (w : World)
    (callTimestamps : List Int) (topic wikiText mode : JsString) (response parsed : JsVal)
    (text : JsString)
    (hcall : (callGemini w 1 callTimestamps).1 = .ok response)
    (htext : extractAiText rt response = .ok text)
    (hparse : rt.jsonParse text = some parsed)
    (hvalid : (if mode == lit "math" then validateMathPayload parsed
      else validateDefaultPayload parsed) = .ok ()) :
    ∃ payload, (generateStudyContent rt sh w callTimestamps topic wikiText mode).1 = .ok payload ∧
      payload = (if mode == lit "math" then
          .obj [(lit "mathQuestion", readProp parsed (lit "mathQuestion"))]
        else
          .obj [(lit "summary", readProp parsed (lit "summary")),
            (lit "quiz", readProp parsed (lit "quiz")),
            (lit "studyTip", readProp parsed (lit "studyTip"))]) ∧
      ∀ key : JsString,
        (if mode == lit "math" then key ≠ lit "mathQuestion"
          else key ≠ lit "summary" ∧ key ≠ lit "quiz" ∧ key ≠ lit "studyTip") →
        readProp payload key = .undefined := by
  refine ⟨_, ?_, rfl, ?_⟩
  · unfold generateStudyContent
    simp only [hcall, generateStudyContentFrom, parseAiResponse, htext, hparse, bind,
      Except.bind, pure, Except.pure, validatedPayload_of_valid hvalid]
  · intro key hkey
    split_ifs at hkey ⊢ with hm
    · have h1 : (key == lit "mathQuestion") = false := beq_eq_false_iff_ne.2 hkey
      simp [readProp, List.lookup, h1]
    · have h1 : (key == lit "summary") = false := beq_eq_false_iff_ne.2 hkey.1
      have h2 : (key == lit "quiz") = false := beq_eq_false_iff_ne.2 hkey.2.1
      have h3 : (key == lit "studyTip") = false := beq_eq_false_iff_ne.2 hkey.2.2
      simp [readProp, List.lookup, h1, h2, h3]

/-- C6, witness: Scenario A; the keys `status` and `topic` of the model output are dropped. -/
theorem generateStudyContent_validated_witness :
    (callGemini (respondingWorld (envelope photosynthesisText)) 1 []).1 =
        .ok (envelope photosynthesisText) ∧
      validateDefaultPayload photosynthesisParsed = .ok () ∧
      ∃ payload, (generateStudyContent (runtimeParsing photosynthesisText photosynthesisParsed)
          identityShuffles (respondingWorld (envelope photosynthesisText)) []
          (lit "Photosynthesis") (lit "Photosynthesis is a process used by plants...")
          (lit "default")).1 = .ok payload ∧
        payload = photosynthesisPayload ∧
        ∀ key : JsString, (key ≠ lit "summary" ∧ key ≠ lit "quiz" ∧ key ≠ lit "studyTip") →
          readProp payload key = .undefined :=
  have hcall : (callGemini (respondingWorld (envelope photosynthesisText)) 1 []).1 =
      .ok (envelope photosynthesisText) := by
    rw [callGemini_ok (respondingWorld (envelope photosynthesisText)) 1 [] _ rfl rfl rfl]
  ⟨hcall, rfl,
    generateStudyContent_validated (runtimeParsing photosynthesisText photosynthesisParsed)
      identityShuffles (respondingWorld (envelope photosynthesisText)) []
      (lit "Photosynthesis") (lit "Photosynthesis is a process used by plants...")
      (lit "default") (envelope photosynthesisText) photosynthesisParsed photosynthesisText
      hcall rfl rfl rfl⟩

/-- C7, failing input: in math mode the parsed value `{"mathQuestion": null}` violates the
schema (`mathQuestion` is not an object), yet `validateMathPayload` does not throw an
`HttpError` of status 502: `typeof null` is `'object'`, the first guard passes, and reading
`mathQuestion.question` throws a `TypeError`.  In default mode the same happens for a quiz
item that is `null`, and in both modes for a top-level `null`. -/
theorem validateMathPayload_null_mathQuestion :
    validateMathPayload (.obj [(lit "mathQuestion", .null)]) = .error .TypeError ∧
      validateDefaultPayload (.obj [
        (lit "summary", fractionalSummary),
        (lit "quiz", .arr [.null, .null, .null]),
        (lit "studyTip", .str (lit "Review set notation."))]) = .error .TypeError ∧
      validateDefaultPayload .null = .error .TypeError ∧
      validateMathPayload .null = .error .TypeError :=
  ⟨rfl, rfl, rfl, rfl⟩

/-! ## Rate limiter -/

theorem purgeExpired_suffix (now : Int) (ts : List Int) : purgeExpired now ts <:+ ts := by
  induction ts with
  | nil => exact List.suffix_refl _
  | cons t rest ih =>
    simp only [purgeExpired]
    split_ifs
    · exact ih.trans (List.suffix_cons t rest)
    · exact List.suffix_refl _

theorem purgeExpired_length_le (now : Int) (ts : List Int) :
    (purgeExpired now ts).length ≤ ts.length :=
  (purgeExpired_suffix now ts).length_le

theorem canCallAi_length_le (now : Int) (ts : List Int) (h : ts.length ≤ 30) :
    (canCallAi now ts).2.length ≤ 30 := by
  have hp := purgeExpired_length_le now ts
  simp only [canCallAi, RATE_LIMIT_MAX_CALLS]
  split_ifs with hge
  · dsimp only
    omega
  · simp only [List.length_append, List.length_singleton]
    omega

theorem runCalls_length_le (ts nows : List Int) (h : ts.length ≤ 30) :
    (runCalls ts nows).1.length ≤ 30 := by
  induction nows generalizing ts with
  | nil => exact h
  | cons now rest ih => exact ih _ (canCallAi_length_le now ts h)

theorem windowAfter_length_le (nows : List Int) : (windowAfter nows).length ≤ 30 :=
  runCalls_length_le [] nows (by simp)

/-- A rejected call from a window of at most 30 entries leaves the window as it was. -/
theorem canCallAi_rejected_unchanged (now : Int) (ts : List Int) (h : ts.length ≤ 30)
    (hr : (canCallAi now ts).1 = false) : (canCallAi now ts).2 = ts := by
  simp only [canCallAi, RATE_LIMIT_MAX_CALLS] at hr ⊢
  split_ifs at hr ⊢ with hge
  · exact (purgeExpired_suffix now ts).eq_of_length (by
      have := purgeExpired_length_le now ts
      omega)

theorem runCalls_append (ts nows : List Int) (now : Int) :
    runCalls ts (nows ++ [now]) =
      ((canCallAi now (runCalls ts nows).1).2,
        if (canCallAi now (runCalls ts nows).1).1 then (runCalls ts nows).2 ++ [now]
        else (runCalls ts nows).2) := by
  induction nows generalizing ts with
  | nil =>
    simp only [List.nil_append, runCalls]
  | cons n rest ih =>
    simp only [List.cons_append, runCalls, List.append_eq]
    rw [ih]
    split_ifs <;> rfl

theorem windowAfter_append (nows : List Int) (now : Int) :
    windowAfter (nows ++ [now]) = (canCallAi now (windowAfter nows)).2 := by
  simp [windowAfter, runCalls_append]

theorem admittedCalls_append (nows : List Int) (now : Int) :
    admittedCalls (nows ++ [now]) =
      if (canCallAi now (windowAfter nows)).1 then admittedCalls nows ++ [now]
      else admittedCalls nows := by
  simp [admittedCalls, windowAfter, runCalls_append]

theorem callResults_append (ts nows : List Int) (now : Int) :
    callResults ts (nows ++ [now]) =
      callResults ts nows ++ [(canCallAi now (runCalls ts nows).1).1] := by
  induction nows generalizing ts with
  | nil => simp [callResults, runCalls]
  | cons n rest ih => simp [callResults, runCalls, ih]

theorem runCalls_admitted_sublist (ts nows : List Int) : List.Sublist (runCalls ts nows).2 nows := by
  induction nows generalizing ts with
  | nil => simp [runCalls]
  | cons n rest ih =>
    simp only [runCalls]
    split_ifs
    · exact (ih _).cons₂ n
    · exact (ih _).cons n

theorem admittedCalls_sublist (nows : List Int) : List.Sublist (admittedCalls nows) nows :=
  runCalls_admitted_sublist [] nows

/-- On a non-decreasing list, purging is keeping the timestamps still in the window. -/
theorem purgeExpired_eq_filter (now : Int) (ts : List Int) (h : ts.Pairwise (· ≤ ·)) :
    purgeExpired now ts = ts.filter (fun t => decide (now - t ≤ RATE_LIMIT_WINDOW_MS)) := by
  induction ts with
  | nil => rfl
  | cons t rest ih =>
    rw [List.pairwise_cons] at h
    simp only [purgeExpired]
    split_ifs with hstale
    · rw [ih h.2, List.filter_cons_of_neg]
      simp only [decide_eq_true_eq]
      omega
    · have hkeep : ∀ x ∈ t :: rest, decide (now - x ≤ RATE_LIMIT_WINDOW_MS) = true := by
        intro x hx
        simp only [decide_eq_true_eq]
        rcases List.mem_cons.1 hx with rfl | hx
        · omega
        · have := h.1 x hx
          omega
      exact (List.filter_eq_self.2 hkeep).symm

theorem admittedCalls_pairwise (nows : List Int) (h : nows.Pairwise (· ≤ ·)) :
    (admittedCalls nows).Pairwise (· ≤ ·) :=
  h.sublist (admittedCalls_sublist nows)

theorem admittedCalls_le (nows : List Int) (now : Int)
    (h : (nows ++ [now]).Pairwise (· ≤ ·)) : ∀ t ∈ admittedCalls nows, t ≤ now := by
  intro t ht
  rw [List.pairwise_append] at h
  exact h.2.2 t ((admittedCalls_sublist nows).subset ht) now (by simp)

/-- With non-decreasing clock readings, what a call at `now` finds after purging is the
admitted timestamps `t` with `now - t ≤ 60000`. -/
theorem purgeExpired_windowAfter (nows : List Int) :
    ∀ now : Int, (nows ++ [now]).Pairwise (· ≤ ·) →
      purgeExpired now (windowAfter nows) =
        (admittedCalls nows).filter (fun t => decide (now - t ≤ RATE_LIMIT_WINDOW_MS)) := by
  induction nows using List.reverseRecOn with
  | nil => intro now _; rfl
  | append_singleton nows n ih =>
    intro now h
    have hn : (nows ++ [n]).Pairwise (· ≤ ·) := (List.pairwise_append.1 h).1
    have hle : n ≤ now := (List.pairwise_append.1 h).2.2 n (by simp) now (by simp)
    have hA := admittedCalls_pairwise nows (List.pairwise_append.1 hn).1
    have hAle := admittedCalls_le nows n hn
    have hfilter : ∀ l : List Int,
        (l.filter (fun t => decide (n - t ≤ RATE_LIMIT_WINDOW_MS))).filter
            (fun t => decide (now - t ≤ RATE_LIMIT_WINDOW_MS)) =
          l.filter (fun t => decide (now - t ≤ RATE_LIMIT_WINDOW_MS)) := by
      intro l
      rw [List.filter_filter]
      apply List.filter_congr
      intro x _
      by_cases hx : now - x ≤ RATE_LIMIT_WINDOW_MS
      · have hx2 : n - x ≤ RATE_LIMIT_WINDOW_MS := by omega
        simp [hx, hx2]
      · simp [hx]
    have hF : ((admittedCalls nows).filter
        (fun t => decide (n - t ≤ RATE_LIMIT_WINDOW_MS))).Pairwise (· ≤ ·) :=
      hA.sublist (List.filter_sublist _)
    rw [windowAfter_append, admittedCalls_append]
    by_cases hge : ((admittedCalls nows).filter
        (fun t => decide (n - t ≤ RATE_LIMIT_WINDOW_MS))).length ≥ RATE_LIMIT_MAX_CALLS
    · have hcall : canCallAi n (windowAfter nows) = (false, (admittedCalls nows).filter
          (fun t => decide (n - t ≤ RATE_LIMIT_WINDOW_MS))) := by
        simp only [canCallAi, ih n hn, hge, if_true]
      rw [hcall]
      simp only [Bool.false_eq_true, if_false]
      rw [purgeExpired_eq_filter now _ hF, hfilter]
    · have hcall : canCallAi n (windowAfter nows) = (true, (admittedCalls nows).filter
          (fun t => decide (n - t ≤ RATE_LIMIT_WINDOW_MS)) ++ [n]) := by
        simp only [canCallAi, ih n hn, hge, if_false]
      have hsorted : ((admittedCalls nows).filter
          (fun t => decide (n - t ≤ RATE_LIMIT_WINDOW_MS)) ++ [n]).Pairwise (· ≤ ·) := by
        rw [List.pairwise_append]
        refine ⟨hF, List.pairwise_singleton _ _, ?_⟩
        intro a ha b hb
        rw [List.mem_singleton] at hb
        subst hb
        exact hAle a (List.mem_of_mem_filter ha)
      rw [hcall]
      simp only [if_true]
      rw [purgeExpired_eq_filter now _ hsorted, List.filter_append, List.filter_append, hfilter]

theorem canCallAi_fst (now : Int) (ts : List Int) :
    (canCallAi now ts).1 = decide ((purgeExpired now ts).length < RATE_LIMIT_MAX_CALLS) := by
  simp only [canCallAi]
  split_ifs with h
  · dsimp only
    symm
    simpa using h
  · dsimp only
    symm
    simpa using h

theorem filter_length_le_of_imp {p q : Int → Bool} (l : List Int)
    (h : ∀ x ∈ l, p x = true → q x = true) : (l.filter p).length ≤ (l.filter q).length := by
  rw [← List.countP_eq_length_filter, ← List.countP_eq_length_filter]
  exact List.countP_mono_left h

/-- With non-decreasing clock readings, every window of 60,000 ms holds at most 30 admitted
timestamps. -/
theorem admittedCalls_window_le (nows : List Int) (T : Int) :
    nows.Pairwise (· ≤ ·) →
      ((admittedCalls nows).filter
        (fun t => decide (T - RATE_LIMIT_WINDOW_MS ≤ t ∧ t ≤ T))).length ≤ 30 := by
  induction nows using List.reverseRecOn with
  | nil => intro _; simp [admittedCalls, runCalls]
  | append_singleton nows n ih =>
    intro h
    have ih := ih (List.pairwise_append.1 h).1
    rw [admittedCalls_append]
    split_ifs with hr
    · rw [canCallAi_fst, purgeExpired_windowAfter nows n h] at hr
      simp only [decide_eq_true_eq, RATE_LIMIT_MAX_CALLS] at hr
      rw [List.filter_append]
      by_cases hn : T - RATE_LIMIT_WINDOW_MS ≤ n ∧ n ≤ T
      · have hle := filter_length_le_of_imp
          (p := fun t => decide (T - RATE_LIMIT_WINDOW_MS ≤ t ∧ t ≤ T))
          (q := fun t => decide (n - t ≤ RATE_LIMIT_WINDOW_MS)) (admittedCalls nows) (by
            intro x _ hx
            simp only [decide_eq_true_eq] at hx ⊢
            omega)
        simp only [List.length_append]
        have : ([n].filter (fun t => decide (T - RATE_LIMIT_WINDOW_MS ≤ t ∧ t ≤ T))).length ≤ 1 :=
          (List.length_filter_le _ _).trans (by simp)
        omega
      · have : [n].filter (fun t => decide (T - RATE_LIMIT_WINDOW_MS ≤ t ∧ t ≤ T)) = [] := by
          rw [List.filter_cons_of_neg]
          · rfl
          · simp only [decide_eq_true_eq]
            exact hn
        rw [this, List.append_nil]
        exact ih
    · exact ih

/-- While at most 30 calls were made, with non-decreasing clock readings, all are admitted. -/
theorem callResults_of_length_le (nows : List Int) :
    nows.Pairwise (· ≤ ·) → nows.length ≤ 30 →
      admittedCalls nows = nows ∧ callResults [] nows = List.replicate nows.length true := by
  induction nows using List.reverseRecOn with
  | nil => intro _ _; exact ⟨rfl, rfl⟩
  | append_singleton nows n ih =>
    intro h hlen
    simp only [List.length_append, List.length_singleton] at hlen
    obtain ⟨hA, hR⟩ := ih (List.pairwise_append.1 h).1 (by omega)
    have hr : (canCallAi n (windowAfter nows)).1 = true := by
      rw [canCallAi_fst, purgeExpired_windowAfter nows n h, hA]
      simp only [decide_eq_true_eq, RATE_LIMIT_MAX_CALLS]
      have := List.length_filter_le (fun t => decide (n - t ≤ RATE_LIMIT_WINDOW_MS)) nows
      omega
    constructor
    · rw [admittedCalls_append, hr, if_pos rfl, hA]
    · have hr' : (canCallAi n (runCalls [] nows).1).1 = true := hr
      rw [callResults_append, hR, hr', List.length_append, List.length_singleton,
        List.replicate_succ']

/-! ## Claims on the rate limiter -/

/-- C8: for every run of `canCallAi` calls from the empty window with non-decreasing clock
readings `nows`, and every instant `T`, at most 30 admitted calls have a timestamp in the
window `[T - 60000, T]`; and the stored array never holds more than 30 entries. -/
theorem canCallAi_window_bound (nows : List Int) (T : Int) (h : nows.Pairwise (· ≤ ·)) :
    ((admittedCalls nows).filter
        (fun t => decide (T - RATE_LIMIT_WINDOW_MS ≤ t ∧ t ≤ T))).length ≤ 30 ∧
      (windowAfter nows).length ≤ 30 :=
  ⟨admittedCalls_window_le nows T h, windowAfter_length_le nows⟩

/-- C8, witness: three calls, the last one 61 s after the first. -/
theorem canCallAi_window_bound_witness :
    [0, 1000, 61000].Pairwise (fun a b : Int => a ≤ b) ∧
      ((admittedCalls [0, 1000, 61000]).filter
        (fun t => decide (61000 - RATE_LIMIT_WINDOW_MS ≤ t ∧ t ≤ 61000))).length ≤ 30 ∧
      (windowAfter [0, 1000, 61000]).length ≤ 30 :=
  ⟨by decide, canCallAi_window_bound [0, 1000, 61000] 61000 (by decide)⟩

/-- C9: for every run of `canCallAi` calls from the empty window with non-decreasing clock
readings, a call at time `now` returns `true` exactly when fewer than 30 of the previously
admitted calls have a timestamp `t` with `now - t ≤ 60000`.  Hence 31 calls within one window
give 30 admissions followed by a rejection, and a call made when the oldest stored timestamp is
more than 60,000 ms old is admitted. -/
theorem canCallAi_admits_iff (nows : List Int) (now : Int)
    (h : (nows ++ [now]).Pairwise (· ≤ ·)) :
    ((canCallAi now (windowAfter nows)).1 = true ↔
      ((admittedCalls nows).filter
        (fun t => decide (now - t ≤ RATE_LIMIT_WINDOW_MS))).length < 30) ∧
    (nows.length = 30 → (∀ t ∈ nows, now - t ≤ RATE_LIMIT_WINDOW_MS) →
      callResults [] (nows ++ [now]) = List.replicate 30 true ++ [false]) ∧
    (∀ oldest rest, windowAfter nows = oldest :: rest →
      now - oldest > RATE_LIMIT_WINDOW_MS → (canCallAi now (windowAfter nows)).1 = true) := by
  refine ⟨?_, ?_, ?_⟩
  · rw [canCallAi_fst, purgeExpired_windowAfter nows now h]
    simp [RATE_LIMIT_MAX_CALLS]
  · intro hlen hwin
    obtain ⟨hA, hR⟩ := callResults_of_length_le nows (List.pairwise_append.1 h).1 (by omega)
    have hr : (canCallAi now (runCalls [] nows).1).1 = false := by
      show (canCallAi now (windowAfter nows)).1 = false
      rw [canCallAi_fst, purgeExpired_windowAfter nows now h, hA,
        List.filter_eq_self.2 (fun t ht => by simpa using hwin t ht), hlen]
      rfl
    rw [callResults_append, hR, hr, hlen]
  · intro oldest rest hw hstale
    have hlen := windowAfter_length_le nows
    rw [canCallAi_fst, hw]
    rw [hw] at hlen
    simp only [purgeExpired, hstale, if_true, decide_eq_true_eq, RATE_LIMIT_MAX_CALLS]
    have := purgeExpired_length_le now rest
    simp only [List.length_cons] at hlen
    omega

/-- C9, witness: 30 calls in the same millisecond and a 31st call one second later. -/
theorem canCallAi_admits_iff_witness :
    (List.replicate 30 (0 : Int) ++ [1000]).Pairwise (fun a b : Int => a ≤ b) ∧
      callResults [] (List.replicate 30 (0 : Int) ++ [1000]) =
        List.replicate 30 true ++ [false] :=
  have h : (List.replicate 30 (0 : Int) ++ [1000]).Pairwise (fun a b : Int => a ≤ b) := by
    decide
  ⟨h, (canCallAi_admits_iff (List.replicate 30 0) 1000 h).2.1 (by decide) (by decide)⟩

/-- C10: in every state reachable from the empty window by `canCallAi` calls (for any clock
readings `nows`), a call that returns `false` leaves the stored array exactly as it was:
nothing is purged and nothing is appended. -/
theorem canCallAi_rejected_frame (nows : List Int) (now : Int)
    (h : (canCallAi now (windowAfter nows)).1 = false) :
    (canCallAi now (windowAfter nows)).2 = windowAfter nows :=
  canCallAi_rejected_unchanged now (windowAfter nows) (windowAfter_length_le nows) h

/-- C10, witness: after 30 calls in the same millisecond, a call one second later is rejected
and the 30 timestamps stay. -/
theorem canCallAi_rejected_frame_witness :
    (canCallAi 1000 (windowAfter (List.replicate 30 0))).1 = false ∧
      (canCallAi 1000 (windowAfter (List.replicate 30 0))).2 = List.replicate 30 0 :=
  have h : (canCallAi 1000 (windowAfter (List.replicate 30 0))).1 = false := by decide
  ⟨h, (canCallAi_rejected_frame (List.replicate 30 0) 1000 h).trans (by decide)⟩

/-! ## Claims on the model client -/

/-- The traced client computes what `callGemini` computes. -/
theorem callGeminiTraced_fst (w : World) (attempt : Nat) (callTimestamps : List Int) :
    (callGeminiTraced w attempt callTimestamps).1 = callGemini w attempt callTimestamps := by
  by_cases h2 : attempt ≥ 2
  · rw [callGeminiTraced, callGemini]
    dsimp only
    split_ifs <;> try rfl
    cases w.post attempt <;> simp [h2]
  · have ih := callGeminiTraced_fst w (attempt + 1)
    rw [callGeminiTraced, callGemini]
    dsimp only
    split_ifs <;> try rfl
    cases w.post attempt <;> simp [h2, ih]
termination_by 2 - attempt
decreasing_by omega

theorem callGeminiTraced_snd_rejected (w : World) (attempt : Nat) (callTimestamps : List Int)
    (h : (canCallAi (w.now attempt) callTimestamps).1 = false) :
    (callGeminiTraced w attempt callTimestamps).2 = [] := by
  rw [callGeminiTraced]
  simp [h]

theorem callGeminiTraced_snd_ok (w : World) (attempt : Nat) (callTimestamps : List Int)
    (data : JsVal) (h : (canCallAi (w.now attempt) callTimestamps).1 = true)
    (hkey : apiKeyMissing w.apiKey = false) (hpost : w.post attempt = .ok data) :
    (callGeminiTraced w attempt callTimestamps).2 = [attempt] := by
  rw [callGeminiTraced]
  simp [h, hkey, hpost]

theorem callGeminiTraced_snd_retry (w : World) (callTimestamps : List Int) (message : JsString)
    (h : (canCallAi (w.now 1) callTimestamps).1 = true)
    (hkey : apiKeyMissing w.apiKey = false) (hpost : w.post 1 = .error message) :
    (callGeminiTraced w 1 callTimestamps).2 =
      1 :: (callGeminiTraced w 2 (canCallAi (w.now 1) callTimestamps).2).2 := by
  rw [callGeminiTraced]
  simp [h, hkey, hpost]

theorem callGeminiTraced_snd_exhausted (w : World) (attempt : Nat) (callTimestamps : List Int)
    (message : JsString) (hattempt : attempt ≥ 2)
    (h : (canCallAi (w.now attempt) callTimestamps).1 = true)
    (hkey : apiKeyMissing w.apiKey = false) (hpost : w.post attempt = .error message) :
    (callGeminiTraced w attempt callTimestamps).2 = [attempt] := by
  rw [callGeminiTraced]
  simp [h, hkey, hpost, hattempt]

/-- C11, counterexample: the window holds 29 timestamps, a credential is configured and the
network times out.  The first attempt is admitted (it takes the 30th place) and fails; the
retry enters `callGemini` again, the rate limiter rejects it, and the call fails with status
429 after a single network attempt: the network call is not retried and the error is not the
502 that carries the cause. -/
theorem callGemini_retry_rate_limited :
    (canCallAi (timingOutWorld.now 1) (windowAfter (List.replicate 29 0))).1 = true ∧
      apiKeyMissing timingOutWorld.apiKey = false ∧
      timingOutWorld.post 1 = .error (lit "timeout of 6000ms exceeded") ∧
      (callGemini timingOutWorld 1 (windowAfter (List.replicate 29 0))).1 =
        .error (.HttpError 429 (lit "AI rate limit exceeded, please retry shortly") none) ∧
      networkAttempts timingOutWorld (windowAfter (List.replicate 29 0)) = [1] := by
  have h1 : (canCallAi (timingOutWorld.now 1) (windowAfter (List.replicate 29 0))).1 = true := by
    decide
  have h2 : (canCallAi (timingOutWorld.now 2)
      (canCallAi (timingOutWorld.now 1) (windowAfter (List.replicate 29 0))).2).1 = false := by
    decide
  refine ⟨h1, rfl, rfl, ?_, ?_⟩
  · rw [callGemini_retry timingOutWorld _ _ h1 rfl rfl,
      callGemini_rejected timingOutWorld 2 _ h2]
  · rw [networkAttempts, callGeminiTraced_snd_retry timingOutWorld _ _ h1 rfl rfl,
      callGeminiTraced_snd_rejected timingOutWorld 2 _ h2]

/-- C11, amended: for every call to the model client that the rate limiter admits and that has
a credential configured, and for every sequence of network outcomes, at most 2 network attempts
are made.  If the first attempt succeeds its data is returned.  If it fails, `callGemini` is
entered once more as attempt 2 and consults the rate limiter again: when the limiter rejects,
no second network attempt is made and the call fails with status 429; when it admits, a second
network attempt is made, its data is returned if it succeeds, and if it fails the call fails
with status 502 carrying the message of that failure as cause, with no further retry. -/
theorem callGemini_attempts (w : World) (callTimestamps : List Int)
    (hpass : (canCallAi (w.now 1) callTimestamps).1 = true)
    (hkey : apiKeyMissing w.apiKey = false) :
    (networkAttempts w callTimestamps).length ≤ 2 ∧
    (∀ data, w.post 1 = .ok data →
      (callGemini w 1 callTimestamps).1 = .ok data ∧ networkAttempts w callTimestamps = [1]) ∧
    (∀ message1, w.post 1 = .error message1 →
      ((canCallAi (w.now 2) (canCallAi (w.now 1) callTimestamps).2).1 = false →
        (callGemini w 1 callTimestamps).1 =
            .error (.HttpError 429 (lit "AI rate limit exceeded, please retry shortly") none) ∧
          networkAttempts w callTimestamps = [1]) ∧
      ((canCallAi (w.now 2) (canCallAi (w.now 1) callTimestamps).2).1 = true →
        (∀ data, w.post 2 = .ok data →
          (callGemini w 1 callTimestamps).1 = .ok data ∧
            networkAttempts w callTimestamps = [1, 2]) ∧
        (∀ message2, w.post 2 = .error message2 →
          (callGemini w 1 callTimestamps).1 =
              .error (.HttpError 502 (lit "Failed to generate study content")
                (some message2)) ∧
            networkAttempts w callTimestamps = [1, 2]))) := by
  have hfirst : ∀ data, w.post 1 = .ok data →
      (callGemini w 1 callTimestamps).1 = .ok data ∧ networkAttempts w callTimestamps = [1] := by
    intro data hp
    exact ⟨by rw [callGemini_ok w 1 callTimestamps data hpass hkey hp],
      callGeminiTraced_snd_ok w 1 callTimestamps data hpass hkey hp⟩
  have hsecond : ∀ message1, w.post 1 = .error message1 →
      ((canCallAi (w.now 2) (canCallAi (w.now 1) callTimestamps).2).1 = false →
        (callGemini w 1 callTimestamps).1 =
            .error (.HttpError 429 (lit "AI rate limit exceeded, please retry shortly") none) ∧
          networkAttempts w callTimestamps = [1]) ∧
      ((canCallAi (w.now 2) (canCallAi (w.now 1) callTimestamps).2).1 = true →
        (∀ data, w.post 2 = .ok data →
          (callGemini w 1 callTimestamps).1 = .ok data ∧
            networkAttempts w callTimestamps = [1, 2]) ∧
        (∀ message2, w.post 2 = .error message2 →
          (callGemini w 1 callTimestamps).1 =
              .error (.HttpError 502 (lit "Failed to generate study content")
                (some message2)) ∧
            networkAttempts w callTimestamps = [1, 2])) := by
    intro message1 hp1
    have hr := callGemini_retry w callTimestamps message1 hpass hkey hp1
    have ht := callGeminiTraced_snd_retry w callTimestamps message1 hpass hkey hp1
    refine ⟨fun hrej => ?_, fun hadm => ⟨fun data hp2 => ?_, fun message2 hp2 => ?_⟩⟩
    · exact ⟨by rw [hr, callGemini_rejected w 2 _ hrej],
        by rw [networkAttempts, ht, callGeminiTraced_snd_rejected w 2 _ hrej]⟩
    · exact ⟨by rw [hr, callGemini_ok w 2 _ data hadm hkey hp2],
        by rw [networkAttempts, ht, callGeminiTraced_snd_ok w 2 _ data hadm hkey hp2]⟩
    · exact ⟨by rw [hr, callGemini_exhausted w 2 _ message2 (le_refl 2) hadm hkey hp2],
        by rw [networkAttempts, ht,
          callGeminiTraced_snd_exhausted w 2 _ message2 (le_refl 2) hadm hkey hp2]⟩
  refine ⟨?_, hfirst, hsecond⟩
  cases hp1 : w.post 1 with
  | ok data => rw [(hfirst data hp1).2]; decide
  | error message1 =>
    cases hadm : (canCallAi (w.now 2) (canCallAi (w.now 1) callTimestamps).2).1 with
    | false => rw [((hsecond message1 hp1).1 hadm).2]; decide
    | true =>
      cases hp2 : w.post 2 with
      | ok data => rw [(((hsecond message1 hp1).2 hadm).1 data hp2).2]; decide
      | error message2 => rw [(((hsecond message1 hp1).2 hadm).2 message2 hp2).2]; decide

/-- C11, witness: from the empty window, with both attempts timing out, two network attempts
are made and the call fails with status 502 carrying the cause. -/
theorem callGemini_attempts_witness :
    (canCallAi (timingOutWorld.now 1) []).1 = true ∧
      apiKeyMissing timingOutWorld.apiKey = false ∧
      (networkAttempts timingOutWorld []).length ≤ 2 ∧
      (callGemini timingOutWorld 1 []).1 =
        .error (.HttpError 502 (lit "Failed to generate study content")
          (some (lit "timeout of 6000ms exceeded"))) ∧
      networkAttempts timingOutWorld [] = [1, 2] :=
  have h := callGemini_attempts timingOutWorld [] rfl rfl
  ⟨rfl, rfl, h.1, ((h.2.2 _ rfl).2 rfl).2 _ rfl⟩

/-! ## Trimming -/

theorem jsTrim_eq_rdropWhile (s : JsString) :
    jsTrim s = List.rdropWhile isWhitespace (s.dropWhile isWhitespace) := rfl

/-- The result of `trim` does not start with whitespace. -/
theorem jsTrim_head (s : JsString) (c : Nat) (h : (jsTrim s).head? = some c) :
    isWhitespace c = false := by
  have hpre : jsTrim s <+: s.dropWhile isWhitespace := by
    rw [jsTrim_eq_rdropWhile]
    exact List.rdropWhile_prefix _ _
  obtain ⟨t, ht⟩ := hpre
  have hhead : (s.dropWhile isWhitespace).head? = some c := by
    rw [← ht]
    cases hj : jsTrim s with
    | nil => rw [hj] at h; simp at h
    | cons x rest => rw [hj] at h; simpa using h
  have := List.head?_dropWhile_not isWhitespace s
  rw [hhead] at this
  simpa using this

/-- The result of `trim` does not end with whitespace. -/
theorem jsTrim_getLast (s : JsString) (c : Nat) (h : (jsTrim s).getLast? = some c) :
    isWhitespace c = false := by
  have hne : List.rdropWhile isWhitespace (s.dropWhile isWhitespace) ≠ [] := by
    intro hnil
    rw [jsTrim_eq_rdropWhile, hnil] at h
    simp at h
  have hlast := List.rdropWhile_last_not isWhitespace (s.dropWhile isWhitespace) hne
  rw [jsTrim_eq_rdropWhile, List.getLast?_eq_getLast _ hne] at h
  cases h
  simpa using hlast

/-- A string that neither starts nor ends with whitespace is its own `trim`. -/
theorem jsTrim_eq_self (s : JsString)
    (hhead : ∀ c, s.head? = some c → isWhitespace c = false)
    (hlast : ∀ c, s.getLast? = some c → isWhitespace c = false) : jsTrim s = s := by
  have h1 : s.dropWhile isWhitespace = s := by
    cases s with
    | nil => rfl
    | cons x rest =>
      have := hhead x rfl
      simp [List.dropWhile_cons, this]
  rw [jsTrim_eq_rdropWhile, h1, List.rdropWhile_eq_self_iff]
  intro hl
  have := hlast _ (List.getLast?_eq_getLast _ hl)
  simp [this]

theorem jsTrim_idempotent (s : JsString) : jsTrim (jsTrim s) = jsTrim s :=
  jsTrim_eq_self _ (jsTrim_head s) (jsTrim_getLast s)

/-! ## Response extractor -/

theorem partTexts_ok_iff (items texts : List JsVal) :
    partTexts items = .ok texts ↔
      (∀ part ∈ items, isNullish part = false) ∧
        texts = items.map (fun part => readProp part (lit "text")) := by
  induction items generalizing texts with
  | nil =>
    simp only [partTexts, pure, Except.pure, Except.ok.injEq, List.not_mem_nil, false_implies,
      implies_true, List.map_nil, true_and]
    exact eq_comm
  | cons part rest ih =>
    simp only [partTexts, bind, Except.bind, getProp]
    cases hn : isNullish part with
    | true =>
      simp only [if_true]
      constructor
      · intro h; cases h
      · intro h
        have := h.1 part (List.mem_cons_self _ _)
        rw [hn] at this
        cases this
    | false =>
      simp only [Bool.false_eq_true, if_false]
      cases hr : partTexts rest with
      | error e =>
        simp only []
        constructor
        · intro h; cases h
        · intro h
          have := (ih (rest.map (fun part => readProp part (lit "text")))).2
            ⟨fun x hx => h.1 x (List.mem_cons_of_mem _ hx), rfl⟩
          rw [hr] at this
          cases this
      | ok ts =>
        have hts := (ih ts).1 hr
        simp only [pure, Except.pure, Except.ok.injEq, List.map_cons]
        constructor
        · intro h
          refine ⟨?_, by rw [← h, hts.2]⟩
          intro x hx
          rcases List.mem_cons.1 hx with rfl | hx
          · exact hn
          · exact hts.1 x hx
        · intro h
          rw [h.2, hts.2]

theorem candidateText_unfold (rt : Runtime) (candidate : JsVal) :
    candidateText rt candidate =
      if isNullish (readProp candidate (lit "content")) then .ok none
      else if isNullish (readProp (readProp candidate (lit "content")) (lit "parts")) then
        .ok none
      else
        match readProp (readProp candidate (lit "content")) (lit "parts") with
        | .arr items =>
          match partTexts items with
          | .ok texts => .ok (some (jsTrim (joinTexts rt texts)))
          | .error e => .error e
        | _ => .error .TypeError := by
  unfold candidateText
  dsimp only
  split_ifs
  · rfl
  · rfl
  · cases hp : readProp (readProp candidate (lit "content")) (lit "parts") with
    | arr items => cases ht : partTexts items <;> simp [ht, bind, Except.bind, pure, Except.pure]
    | undefined => rfl
    | null => rfl
    | bool b => rfl
    | num n => rfl
    | str s => rfl
    | obj props => rfl

theorem readProp_of_nullish {v : JsVal} (key : JsString) (h : isNullish v = true) :
    readProp v key = .undefined := by
  cases v <;> first | rfl | simp [isNullish] at h

/-- When `candidateText` yields a string: the content has an array of parts whose texts can all
be read, and the string is their trimmed concatenation. -/
theorem candidateText_eq_some_iff (rt : Runtime) (candidate : JsVal) (text : JsString) :
    candidateText rt candidate = .ok (some text) ↔
      ∃ parts, readProp (readProp candidate (lit "content")) (lit "parts") = .arr parts ∧
        (∀ part ∈ parts, isNullish part = false) ∧
        text = jsTrim (joinTexts rt (parts.map (fun part => readProp part (lit "text")))) := by
  rw [candidateText_unfold]
  by_cases hc : isNullish (readProp candidate (lit "content")) = true
  · rw [if_pos hc]
    constructor
    · intro h; cases h
    · rintro ⟨parts, hp, _⟩
      rw [readProp_of_nullish _ hc] at hp
      cases hp
  · rw [if_neg hc]
    cases hp : readProp (readProp candidate (lit "content")) (lit "parts") with
    | arr items =>
      rw [if_neg (by simp [isNullish])]
      dsimp only
      cases ht : partTexts items with
      | error e =>
        dsimp only
        constructor
        · intro h; cases h
        · rintro ⟨parts, hparts, hall, _⟩
          cases hparts
          have := (partTexts_ok_iff items _).2 ⟨hall, rfl⟩
          rw [ht] at this
          cases this
      | ok texts =>
        obtain ⟨hall, htexts⟩ := (partTexts_ok_iff items texts).1 ht
        dsimp only
        constructor
        · intro h
          cases h
          exact ⟨items, rfl, hall, by rw [htexts]⟩
        · rintro ⟨parts, hparts, _, htext⟩
          cases hparts
          rw [htext, htexts]
    | undefined =>
      rw [if_pos (show isNullish JsVal.undefined = true from rfl)]
      constructor
      · intro h; cases h
      · rintro ⟨parts, hparts, _⟩; cases hparts
    | null =>
      rw [if_pos (show isNullish JsVal.null = true from rfl)]
      constructor
      · intro h; cases h
      · rintro ⟨parts, hparts, _⟩; cases hparts
    | bool b =>
      rw [if_neg (by simp [isNullish])]
      constructor
      · intro h; cases h
      · rintro ⟨parts, hparts, _⟩; cases hparts
    | num n =>
      rw [if_neg (by simp [isNullish])]
      constructor
      · intro h; cases h
      · rintro ⟨parts, hparts, _⟩; cases hparts
    | str s =>
      rw [if_neg (by simp [isNullish])]
      constructor
      · intro h; cases h
      · rintro ⟨parts, hparts, _⟩; cases hparts
    | obj props =>
      rw [if_neg (by simp [isNullish])]
      constructor
      · intro h; cases h
      · rintro ⟨parts, hparts, _⟩; cases hparts

theorem extractAiText_of_falsy (rt : Runtime) (response : JsVal)
    (h : isTruthy (firstCandidate response) = false) :
    extractAiText rt response =
      .error (.HttpError 502 (lit "AI generation returned no candidates") none) := by
  simp [extractAiText, h, throw, throwThe, MonadExceptOf.throw, bind, Except.bind]

theorem extractAiText_of_truthy (rt : Runtime) (response : JsVal)
    (h : isTruthy (firstCandidate response) = true) :
    extractAiText rt response =
      match candidateText rt (firstCandidate response) with
      | .error e => .error e
      | .ok none => .error (.HttpError 502 (lit "AI generation returned empty content") none)
      | .ok (some text) =>
        if text.isEmpty then
          .error (.HttpError 502 (lit "AI generation returned empty content") none)
        else .ok text := by
  simp only [extractAiText, h, Bool.not_true, Bool.false_eq_true, if_false, bind, Except.bind,
    pure, Except.pure, throw, throwThe, MonadExceptOf.throw]
  cases candidateText rt (firstCandidate response) with
  | error e => rfl
  | ok text =>
    cases text with
    | none => rfl
    | some text => rfl

/-! ## Concatenation and trimming, in the words of the specification -/

/-- The call `texts.join('')` is the concatenation of what each element contributes. -/
theorem joinTexts_eq_concatenation (rt : Runtime) (texts : List JsVal) :
    joinTexts rt texts = concatenation rt texts := by
  induction texts with
  | nil => rfl
  | cons v rest ih =>
    cases v <;> simp [joinTexts, concatenation, elementText, ih]

/-- The concatenation of strings is the strings appended in order. -/
theorem concatenation_strings (rt : Runtime) (strings : List JsString) :
    concatenation rt (strings.map JsVal.str) = strings.flatten := by
  induction strings with
  | nil => rfl
  | cons s rest ih =>
    simp only [concatenation, List.map_cons, List.flatten_cons, elementText] at ih ⊢
    rw [ih]

/-- The method `trim` removes the leading and the trailing whitespace, and nothing else. -/
theorem jsTrim_isTrimOf (s : JsString) : IsTrimOf (jsTrim s) s := by
  refine ⟨s.takeWhile isWhitespace,
    ((s.dropWhile isWhitespace).reverse.takeWhile isWhitespace).reverse, ?_,
    fun c hc => List.mem_takeWhile_imp hc,
    fun c hc => List.mem_takeWhile_imp (List.mem_reverse.1 hc),
    jsTrim_head s, jsTrim_getLast s⟩
  have h1 : s = s.takeWhile isWhitespace ++ s.dropWhile isWhitespace :=
    (List.takeWhile_append_dropWhile isWhitespace s).symm
  have h2 : s.dropWhile isWhitespace =
      jsTrim s ++ ((s.dropWhile isWhitespace).reverse.takeWhile isWhitespace).reverse := by
    have := List.takeWhile_append_dropWhile isWhitespace (s.dropWhile isWhitespace).reverse
    have h3 := congrArg List.reverse this
    rw [List.reverse_append, List.reverse_reverse] at h3
    exact h3.symm
  rw [List.append_assoc, ← h2]
  exact h1

/-- A string has one trim: what is left of it without leading and trailing whitespace is what
`trim` returns. -/
theorem jsTrim_eq_of_isTrimOf (text whole : JsString) (h : IsTrimOf text whole) :
    jsTrim whole = text := by
  obtain ⟨before, after, hwhole, hbefore, hafter, hhead, hlast⟩ := h
  have hd1 : whole.dropWhile isWhitespace = (text ++ after).dropWhile isWhitespace := by
    rw [hwhole, List.append_assoc, List.dropWhile_append_of_pos hbefore]
  cases text with
  | nil =>
    have hall : (([] : JsString) ++ after).dropWhile isWhitespace = [] := by
      rw [List.nil_append, List.dropWhile_eq_nil_iff]
      exact hafter
    rw [jsTrim_eq_rdropWhile, hd1, hall]
    rfl
  | cons x rest =>
    have hx : isWhitespace x = false := hhead x rfl
    have hd2 : ((x :: rest) ++ after).dropWhile isWhitespace = (x :: rest) ++ after := by
      simp [List.dropWhile_cons, hx]
    have hrev : ((x :: rest) ++ after).reverse.dropWhile isWhitespace = (x :: rest).reverse := by
      rw [List.reverse_append, List.dropWhile_append_of_pos
        (fun c hc => hafter c (List.mem_reverse.1 hc))]
      have hne : (x :: rest).reverse ≠ [] := by simp
      cases hr : (x :: rest).reverse with
      | nil => exact absurd hr hne
      | cons y ys =>
        have hy : (x :: rest).getLast? = some y := by
          rw [List.getLast?_eq_head?_reverse, hr]
          rfl
        have := hlast y hy
        simp [List.dropWhile_cons, this]
    rw [jsTrim, hd1, hd2, hrev, List.reverse_reverse]

/-- The expression `response?.candidates?.[0]` evaluates to the first candidate, when there
is one. -/
theorem firstCandidate_eq_of_isFirstCandidate (response candidate : JsVal)
    (h : IsFirstCandidate response candidate) : firstCandidate response = candidate := by
  cases response with
  | obj props =>
    have hn : isNullish (JsVal.obj props) = false := rfl
    rcases h with ⟨rest, h⟩ | ⟨c, rest, h, hc⟩ | ⟨ps, h, hl⟩
    · simp only [firstCandidate, hn, Bool.false_eq_true, if_false, h, isNullish, firstElement]
    · simp only [firstCandidate, hn, Bool.false_eq_true, if_false, h, isNullish, firstElement,
        hc]
    · simp only [firstCandidate, hn, Bool.false_eq_true, if_false, h, isNullish, firstElement,
        hl, Option.getD_some]
  | undefined => rcases h with ⟨_, h⟩ | ⟨_, _, h, _⟩ | ⟨_, h, _⟩ <;> cases h
  | null => rcases h with ⟨_, h⟩ | ⟨_, _, h, _⟩ | ⟨_, h, _⟩ <;> cases h
  | bool b => rcases h with ⟨_, h⟩ | ⟨_, _, h, _⟩ | ⟨_, h, _⟩ <;> cases h
  | num n => rcases h with ⟨_, h⟩ | ⟨_, _, h, _⟩ | ⟨_, h, _⟩ <;> cases h
  | str s => rcases h with ⟨_, h⟩ | ⟨_, _, h, _⟩ | ⟨_, h, _⟩ <;> cases h
  | arr items => rcases h with ⟨_, h⟩ | ⟨_, _, h, _⟩ | ⟨_, h, _⟩ <;> cases h

/-- A truthy value of `response?.candidates?.[0]` is the first candidate of the response. -/
theorem isFirstCandidate_of_truthy (response : JsVal)
    (h : isTruthy (firstCandidate response) = true) :
    IsFirstCandidate response (firstCandidate response) := by
  cases response with
  | obj props =>
    have hn : isNullish (JsVal.obj props) = false := rfl
    cases hc : readProp (.obj props) (lit "candidates") with
    | arr items =>
      cases items with
      | nil =>
        simp [firstCandidate, hn, hc, isNullish, firstElement, isTruthy] at h
      | cons x rest =>
        refine Or.inl ⟨rest, ?_⟩
        simp only [firstCandidate, hn, Bool.false_eq_true, if_false, hc, isNullish,
          firstElement]
    | str s =>
      cases s with
      | nil =>
        simp [firstCandidate, hn, hc, isNullish, firstElement, isTruthy] at h
      | cons c rest =>
        refine Or.inr (Or.inl ⟨c, rest, hc, ?_⟩)
        simp only [firstCandidate, hn, Bool.false_eq_true, if_false, hc, isNullish,
          firstElement]
    | obj ps =>
      cases hl : ps.lookup (lit "0") with
      | none =>
        simp [firstCandidate, hn, hc, isNullish, firstElement, isTruthy, hl] at h
      | some candidate =>
        refine Or.inr (Or.inr ⟨ps, hc, ?_⟩)
        simp only [firstCandidate, hn, Bool.false_eq_true, if_false, hc, isNullish,
          firstElement, hl, Option.getD_some]
    | undefined => simp [firstCandidate, hn, hc, isNullish, isTruthy] at h
    | null => simp [firstCandidate, hn, hc, isNullish, isTruthy] at h
    | bool b => simp [firstCandidate, hn, hc, isNullish, firstElement, isTruthy] at h
    | num n => simp [firstCandidate, hn, hc, isNullish, firstElement, isTruthy] at h
  | undefined => simp [firstCandidate, isNullish, isTruthy] at h
  | null => simp [firstCandidate, isNullish, isTruthy] at h
  | bool b => simp [firstCandidate, isNullish, readProp, isTruthy] at h
  | num n => simp [firstCandidate, isNullish, readProp, isTruthy] at h
  | str s => simp [firstCandidate, isNullish, readProp, isTruthy] at h
  | arr items => simp [firstCandidate, isNullish, readProp, isTruthy] at h

/-- A truthy candidate without content, or whose content has no parts, has no text. -/
theorem candidateText_of_nullish (rt : Runtime) (candidate : JsVal)
    (h : isNullish (readProp candidate (lit "content")) = true ∨
      isNullish (readProp (readProp candidate (lit "content")) (lit "parts")) = true) :
    candidateText rt candidate = .ok none := by
  rw [candidateText_unfold]
  by_cases hc : isNullish (readProp candidate (lit "content")) = true
  · rw [if_pos hc]
  · rw [if_neg hc]
    rcases h with h | h
    · exact absurd h hc
    · rw [if_pos h]

/-- The texts of the two parts of the first candidate are concatenated in order, and the
concatenation is trimmed. -/
theorem extractAiText_twoPartEnvelope :
    extractAiText runtimeRejecting twoPartEnvelope = .ok (lit "Hello, world.") := by
  rfl

/-! ## Claims on the response extractor -/

/-- C12: `extractAiText` returns a string exactly when the response has a first candidate whose
content parts have texts that, concatenated in order and trimmed, are non-empty; it then
returns that trimmed concatenation, which is non-empty and neither starts nor ends with
whitespace.  When the response has no first candidate, or a falsy one, it throws an
`HttpError` with status 502; so it does when the concatenated text is empty after trimming,
and when the first candidate has no content or its content has no parts.  The first
candidate, the concatenation and the trimming are stated by `IsFirstCandidate`,
`concatenation` and `IsTrimOf`, which are defined without `firstCandidate`, `joinTexts` and
`jsTrim`. -/
theorem extractAiText_spec (rt : Runtime) (response : JsVal) :
    (∀ text, extractAiText rt response = .ok text ↔
      ∃ texts, FirstCandidateTexts response texts ∧
        IsTrimOf text (concatenation rt texts) ∧ text ≠ []) ∧
    ((∀ candidate, IsFirstCandidate response candidate → isTruthy candidate = false) →
      extractAiText rt response =
        .error (.HttpError 502 (lit "AI generation returned no candidates") none)) ∧
    (∀ texts, FirstCandidateTexts response texts → IsTrimOf [] (concatenation rt texts) →
      extractAiText rt response =
        .error (.HttpError 502 (lit "AI generation returned empty content") none)) ∧
    (∀ candidate, IsFirstCandidate response candidate → isTruthy candidate = true →
      isNullish (readProp candidate (lit "content")) = true ∨
        isNullish (readProp (readProp candidate (lit "content")) (lit "parts")) = true →
      extractAiText rt response =
        .error (.HttpError 502 (lit "AI generation returned empty content") none)) := by
  refine ⟨?_, ?_, ?_, ?_⟩
  · intro text
    constructor
    · intro h
      cases hc : isTruthy (firstCandidate response) with
      | false =>
        rw [extractAiText_of_falsy rt response hc] at h
        cases h
      | true =>
        rw [extractAiText_of_truthy rt response hc] at h
        cases hct : candidateText rt (firstCandidate response) with
        | error e => rw [hct] at h; cases h
        | ok value =>
          cases value with
          | none => rw [hct] at h; cases h
          | some t =>
            rw [hct] at h
            dsimp only at h
            split_ifs at h with hempty
            cases h
            obtain ⟨parts, hp, hall, htext⟩ := (candidateText_eq_some_iff rt _ _).1 hct
            refine ⟨_, ⟨firstCandidate response, parts, isFirstCandidate_of_truthy response hc,
              hc, hp, hall, rfl⟩, ?_, ?_⟩
            · rw [htext, joinTexts_eq_concatenation]
              exact jsTrim_isTrimOf _
            · intro hnil
              rw [hnil] at hempty
              exact hempty rfl
    · rintro ⟨texts, ⟨candidate, parts, hfirst, hc, hp, hall, htexts⟩, htrim, hne⟩
      have hcand := firstCandidate_eq_of_isFirstCandidate response candidate hfirst
      rw [← hcand] at hc hp
      have htext : text = jsTrim (joinTexts rt
          (parts.map (fun part => readProp part (lit "text")))) := by
        rw [joinTexts_eq_concatenation, ← htexts]
        exact (jsTrim_eq_of_isTrimOf _ _ htrim).symm
      have hct := (candidateText_eq_some_iff rt (firstCandidate response) text).2
        ⟨parts, hp, hall, htext⟩
      rw [extractAiText_of_truthy rt response hc, hct]
      dsimp only
      have : text.isEmpty = false := by
        cases text with
        | nil => exact absurd rfl hne
        | cons x rest => rfl
      rw [this]
      rfl
  · intro h
    cases hc : isTruthy (firstCandidate response) with
    | false => exact extractAiText_of_falsy rt response hc
    | true =>
      have := h _ (isFirstCandidate_of_truthy response hc)
      rw [hc] at this
      cases this
  · rintro texts ⟨candidate, parts, hfirst, hc, hp, hall, htexts⟩ hempty
    have hcand := firstCandidate_eq_of_isFirstCandidate response candidate hfirst
    rw [← hcand] at hc hp
    have htext : ([] : JsString) = jsTrim (joinTexts rt
        (parts.map (fun part => readProp part (lit "text")))) := by
      rw [joinTexts_eq_concatenation, ← htexts]
      exact (jsTrim_eq_of_isTrimOf _ _ hempty).symm
    have hct := (candidateText_eq_some_iff rt (firstCandidate response) []).2
      ⟨parts, hp, hall, htext⟩
    rw [extractAiText_of_truthy rt response hc, hct]
    rfl
  · intro candidate hfirst hc hnull
    have hcand := firstCandidate_eq_of_isFirstCandidate response candidate hfirst
    rw [← hcand] at hc hnull
    rw [extractAiText_of_truthy rt response hc, candidateText_of_nullish rt _ hnull]

/-! ## Words -/

theorem splitWhitespaceAux_word (cur w rest : JsString) (hw : ∀ c ∈ w, isWhitespace c = false) :
    splitWhitespaceAux cur false (w ++ rest) = splitWhitespaceAux (cur ++ w) false rest := by
  induction w generalizing cur with
  | nil => simp
  | cons c w ih =>
    have hc : isWhitespace c = false := hw c (List.mem_cons_self _ _)
    simp only [List.cons_append, splitWhitespaceAux, hc, Bool.false_eq_true, if_false,
      List.append_eq]
    rw [ih (cur ++ [c]) (fun x hx => hw x (List.mem_cons_of_mem _ hx))]
    simp

theorem splitWhitespaceAux_word_start (b : Bool) (w rest : JsString) (hne : w ≠ [])
    (hw : ∀ c ∈ w, isWhitespace c = false) :
    splitWhitespaceAux [] b (w ++ rest) = splitWhitespaceAux w false rest := by
  cases w with
  | nil => exact absurd rfl hne
  | cons c w =>
    have hc : isWhitespace c = false := hw c (List.mem_cons_self _ _)
    simp only [List.cons_append, splitWhitespaceAux, hc, Bool.false_eq_true, if_false,
      List.nil_append, List.append_eq]
    rw [splitWhitespaceAux_word [c] w rest (fun x hx => hw x (List.mem_cons_of_mem _ hx))]
    simp

/-- Splitting words joined by single spaces, with a suffix free of whitespace glued to the last
word, gives as many words as were joined. -/
theorem wordCount_join (b : Bool) (words : List JsString) (suffix : JsString)
    (hne : words ≠ [])
    (hwords : ∀ w ∈ words, w ≠ [] ∧ ∀ c ∈ w, isWhitespace c = false)
    (hsuffix : ∀ c ∈ suffix, isWhitespace c = false) :
    ((splitWhitespaceAux [] b (jsJoin (lit " ") words ++ suffix)).filter
      (fun w => !w.isEmpty)).length = words.length := by
  induction words generalizing b with
  | nil => exact absurd rfl hne
  | cons w rest ih =>
    obtain ⟨hwne, hw⟩ := hwords w (List.mem_cons_self _ _)
    cases rest with
    | nil =>
      have hws : ∀ c ∈ w ++ suffix, isWhitespace c = false := by
        intro c hc
        rcases List.mem_append.1 hc with h | h
        · exact hw c h
        · exact hsuffix c h
      have hne2 : w ++ suffix ≠ [] := by simp [hwne]
      have := splitWhitespaceAux_word_start b (w ++ suffix) [] hne2 hws
      simp only [List.append_nil] at this
      simp only [jsJoin, this, splitWhitespaceAux]
      have hemp : (w ++ suffix).isEmpty = false := by
        cases h : w ++ suffix with
        | nil => exact absurd h hne2
        | cons x xs => rfl
      simp [List.filter, hemp]
    | cons w2 rest2 =>
      have hsep : lit " " = [32] := rfl
      have hemp : w.isEmpty = false := by
        cases w with
        | nil => exact absurd rfl hwne
        | cons x xs => rfl
      have htext : jsJoin (lit " ") (w :: w2 :: rest2) ++ suffix =
          w ++ (32 :: (jsJoin (lit " ") (w2 :: rest2) ++ suffix)) := by
        simp [jsJoin, hsep]
      rw [htext, splitWhitespaceAux_word_start b w _ hwne hw]
      have h32 : isWhitespace 32 = true := rfl
      simp only [splitWhitespaceAux, h32, if_true, Bool.false_eq_true, if_false]
      rw [List.filter_cons_of_pos (by simp [hemp]), List.length_cons,
        ih true (by simp) (fun x hx => hwords x (List.mem_cons_of_mem _ hx))]
      simp

theorem splitWhitespaceAux_pieces (cur : JsString) (b : Bool) (text : JsString)
    (hcur : ∀ c ∈ cur, isWhitespace c = false) :
    ∀ piece ∈ splitWhitespaceAux cur b text, ∀ c ∈ piece, isWhitespace c = false := by
  induction text generalizing cur b with
  | nil =>
    intro piece hp
    simp only [splitWhitespaceAux, List.mem_singleton] at hp
    rw [hp]
    exact hcur
  | cons x rest ih =>
    intro piece hp
    simp only [splitWhitespaceAux] at hp
    split_ifs at hp with hx hb
    · exact ih cur true hcur piece hp
    · rcases List.mem_cons.1 hp with rfl | hp
      · exact hcur
      · exact ih [] true (by simp) piece hp
    · refine ih (cur ++ [x]) false ?_ piece hp
      intro c hc
      rcases List.mem_append.1 hc with h | h
      · exact hcur c h
      · rw [List.mem_singleton] at h
        rw [h]
        simpa using hx

/-- The words of a string are non-empty and hold no whitespace. -/
theorem wordsOf_word (text w : JsString) (h : w ∈ wordsOf text) :
    w ≠ [] ∧ ∀ c ∈ w, isWhitespace c = false := by
  simp only [wordsOf, List.mem_filter] at h
  refine ⟨?_, splitWhitespaceAux_pieces [] false text (by simp) w h.1⟩
  rintro rfl
  simp at h

/-! ## Fallback summary -/

theorem pushSentences_eq (bullets sentences : List JsString) (h : bullets.length ≤ 3) :
    pushSentences bullets sentences =
      bullets ++ (sentences.take (3 - bullets.length)).map (fun s => trimToWords s 20) := by
  induction sentences generalizing bullets with
  | nil => simp [pushSentences]
  | cons s rest ih =>
    simp only [pushSentences]
    split_ifs with hlt
    · rw [ih (bullets ++ [trimToWords s 20]) (by simp; omega)]
      have h3 : 3 - bullets.length = (3 - (bullets ++ [trimToWords s 20]).length) + 1 := by
        simp only [List.length_append, List.length_singleton]
        omega
      rw [h3, List.take_succ_cons, List.map_cons]
      simp
    · have h0 : 3 - bullets.length = 0 := by omega
      simp [h0]

/-- The bullet made from a sentence, in the words of the specification. -/
theorem trimToWords_sentence (x : JsString) :
    trimToWords (jsTrim x) 20 =
      if (wordsOf (jsTrim x)).length ≤ 20 then jsTrim x
      else jsJoin (lit " ") ((wordsOf (jsTrim x)).take 20) ++ ellipsisMarker := by
  simp only [trimToWords, wordsOf, jsTrim_idempotent]

theorem jsJoin_ne_nil_append (words : List JsString) : jsJoin (lit " ") words ++ ellipsisMarker ≠ [] := by
  intro h
  have := congrArg List.length h
  simp [ellipsisMarker, lit] at this

/-- A bullet made from a non-empty trimmed sentence is non-empty and has at most 20 words. -/
theorem trimToWords_bound (x : JsString) (hx : jsTrim x ≠ []) :
    trimToWords (jsTrim x) 20 ≠ [] ∧ (wordsOf (trimToWords (jsTrim x) 20)).length ≤ 20 := by
  rw [trimToWords_sentence]
  split_ifs with hle
  · exact ⟨hx, hle⟩
  · refine ⟨jsJoin_ne_nil_append _, ?_⟩
    have hlen : ((wordsOf (jsTrim x)).take 20).length = 20 := by
      rw [List.length_take]
      omega
    have hne : (wordsOf (jsTrim x)).take 20 ≠ [] := by
      intro h
      rw [h] at hlen
      simp at hlen
    have := wordCount_join false ((wordsOf (jsTrim x)).take 20) ellipsisMarker hne
      (fun w hw => wordsOf_word _ w (List.mem_of_mem_take hw)) (by decide)
    have hgoal : (wordsOf (jsJoin (lit " ") ((wordsOf (jsTrim x)).take 20) ++
        ellipsisMarker)).length = ((wordsOf (jsTrim x)).take 20).length := this
    rw [hgoal, hlen]

theorem mem_take_map_sentences (wikiText : JsString) (bullet : JsString)
    (h : bullet ∈ ((((splitSentences wikiText).map jsTrim).filter
      (fun s => !s.isEmpty)).take 3).map (fun s => trimToWords s 20)) :
    ∃ x, jsTrim x ≠ [] ∧ bullet = trimToWords (jsTrim x) 20 := by
  obtain ⟨s, hs, rfl⟩ := List.mem_map.1 h
  have hs2 := List.mem_filter.1 (List.mem_of_mem_take hs)
  obtain ⟨x, _, rfl⟩ := List.mem_map.1 hs2.1
  refine ⟨x, ?_, rfl⟩
  intro hnil
  rw [hnil] at hs2
  simp at hs2

theorem buildFallbackSummary_unfold (wikiText : JsString) :
    buildFallbackSummary wikiText =
      ((((splitSentences wikiText).map jsTrim).filter (fun s => !s.isEmpty)).take 3).map
          (fun s => trimToWords s 20) ++
        List.replicate (3 - ((((splitSentences wikiText).map jsTrim).filter
          (fun s => !s.isEmpty)).take 3).length) (lit "Explore core ideas and definitions.") := by
  simp only [buildFallbackSummary]
  rw [pushSentences_eq [] _ (by simp)]
  simp

/-- Every bullet of the fallback summary is non-empty and has at most 20 words. -/
theorem buildFallbackSummary_bullet (wikiText bullet : JsString)
    (h : bullet ∈ buildFallbackSummary wikiText) :
    bullet ≠ [] ∧ (wordsOf bullet).length ≤ 20 := by
  rw [buildFallbackSummary_unfold] at h
  rcases List.mem_append.1 h with h | h
  · obtain ⟨x, hx, rfl⟩ := mem_take_map_sentences wikiText bullet h
    exact trimToWords_bound x hx
  · rw [(List.mem_replicate.1 h).2]
    exact ⟨by decide, by decide⟩

/-- The bullets of `buildFallbackSummary`, for every source text: there are exactly 3, each
non-empty and of at most 20 words.  With the sentences of the text being its non-empty trimmed
pieces, bullet `i` is, when there is a sentence `i`, that sentence itself if it has at most 20
words and otherwise its first 20 words joined by single spaces followed by the marker that
`trimToWords` appends; when there is no sentence `i`, it is the filler. -/
theorem buildFallbackSummary_shape (wikiText : JsString) :
    (buildFallbackSummary wikiText).length = 3 ∧
    (∀ bullet ∈ buildFallbackSummary wikiText, bullet ≠ [] ∧ (wordsOf bullet).length ≤ 20) ∧
    ∀ i, i < 3 →
      (buildFallbackSummary wikiText).get? i = some
        (match (((splitSentences wikiText).map jsTrim).filter (fun s => !s.isEmpty)).get? i with
          | some sentence =>
            if (wordsOf sentence).length ≤ 20 then sentence
            else jsJoin (lit " ") ((wordsOf sentence).take 20) ++ ellipsisMarker
          | none => lit "Explore core ideas and definitions.") := by
  refine ⟨buildFallbackSummary_length wikiText, buildFallbackSummary_bullet wikiText, ?_⟩
  intro i hi
  rw [buildFallbackSummary_unfold]
  cases hs : (((splitSentences wikiText).map jsTrim).filter (fun s => !s.isEmpty)).get? i with
  | some sentence =>
    have hmem := List.get?_mem hs
    obtain ⟨x, _, hx⟩ := List.mem_map.1 (List.mem_filter.1 hmem).1
    have hget : ((((splitSentences wikiText).map jsTrim).filter
        (fun s => !s.isEmpty)).take 3).get? i = some sentence := by
      simp only [List.get?_eq_getElem?] at hs ⊢
      rw [List.getElem?_take_of_lt hi]
      exact hs
    have hlt : i < (((((splitSentences wikiText).map jsTrim).filter
        (fun s => !s.isEmpty)).take 3).map (fun s => trimToWords s 20)).length := by
      rw [List.length_map]
      exact (List.get?_eq_some.1 hget).1
    simp only [List.get?_eq_getElem?] at hget ⊢
    rw [List.getElem?_append_left hlt, List.getElem?_map, hget, Option.map_some', ← hx,
      trimToWords_sentence]
  | none =>
    have hlen : (((splitSentences wikiText).map jsTrim).filter (fun s => !s.isEmpty)).length ≤ i := by
      simp only [List.get?_eq_getElem?] at hs
      exact List.getElem?_eq_none_iff.1 hs
    have hlen2 : (((((splitSentences wikiText).map jsTrim).filter
        (fun s => !s.isEmpty)).take 3).map (fun s => trimToWords s 20)).length ≤ i := by
      rw [List.length_map, List.length_take]
      omega
    simp only [List.get?_eq_getElem?]
    rw [List.getElem?_append_right hlen2, List.getElem?_replicate]
    rw [if_pos]
    simp only [List.length_map, List.length_take]
    omega

/-! ## Claims on the fallback summary and quiz -/

theorem genericDistractors_injective :
    ∀ i j : Fin 4, genericDistractors i = genericDistractors j → i = j := by
  decide

theorem jsOr_str_of_ne_nil (s : JsString) (v : JsVal) (h : s ≠ []) : jsOr (.str s) v = .str s := by
  cases s with
  | nil => exact absurd rfl h
  | cons x rest => rfl

theorem fallbackItem_mk (shuffle : Equiv.Perm (Fin 4)) (id : Int) (question bullet : JsString) :
    FallbackItem (.obj [
      (lit "id", .num (.fin id 0)),
      (lit "question", .str question),
      (lit "choices", .arr [.str bullet, .str (genericDistractors (shuffle 0)),
        .str (genericDistractors (shuffle 1)), .str (genericDistractors (shuffle 2))]),
      (lit "answerIndex", .num (.fin 0 0))]) id bullet := by
  refine ⟨rfl, rfl, shuffle 0, shuffle 1, shuffle 2, rfl, ?_, ?_, ?_⟩
  · intro h
    have := shuffle.injective (genericDistractors_injective _ _ h)
    exact absurd this (by decide)
  · intro h
    have := shuffle.injective (genericDistractors_injective _ _ h)
    exact absurd this (by decide)
  · intro h
    have := shuffle.injective (genericDistractors_injective _ _ h)
    exact absurd this (by decide)

/-- C14, failing input: a source text whose first sentence, `longSentence`, has 23 words.  The
first bullet is the first 20 words of that sentence joined by single spaces, followed by the
three characters U+00E2 U+20AC U+00A6 that the source file stores after the substitution in the
template literal of `trimToWords`: they are the bytes of the ellipsis U+2026 read in a one-byte
encoding.  No bullet holds an ellipsis character or ends in three full stops, so the first
bullet is not the first 20 words followed by the ellipsis marker. -/
theorem buildFallbackSummary_marker_garbled :
    (wordsOf longSentence).length = 23 ∧
      jsJoin (lit " ") ((wordsOf longSentence).take 20) = longSentenceStart ∧
      buildFallbackSummary longSentenceText =
        [longSentenceStart ++ [226, 8364, 166], lit "It sleeps!", lit "Then it wakes?"] ∧
      (∀ bullet ∈ buildFallbackSummary longSentenceText, 8230 ∉ bullet) ∧
      (∀ bullet ∈ buildFallbackSummary longSentenceText, ¬ lit "..." <:+ bullet) ∧
      buildFallbackSummary longSentenceText ≠
        [longSentenceStart ++ ellipsisCharacter, lit "It sleeps!", lit "Then it wakes?"] := by
  refine ⟨by decide, by decide, by decide, by decide, by decide, by decide⟩

/-- C15: for every topic, source text and shuffle outcome, the default-mode fallback payload has
a quiz of exactly 3 items with ids 1, 2, 3; the item at position `i` has `answerIndex` 0, its
first choice is the summary bullet at position `i` of the same payload, and its other 3 choices
are 3 distinct statements of the fixed pool of 4. -/
theorem buildFallbackContent_quiz (sh : Shuffles) (topic wikiText : JsString) :
    ∃ (b1 b2 b3 : JsString) (q1 q2 q3 : JsVal),
      readProp (buildFallbackContent sh topic wikiText (lit "default")) (lit "summary") =
        .arr [.str b1, .str b2, .str b3] ∧
      readProp (buildFallbackContent sh topic wikiText (lit "default")) (lit "quiz") =
        .arr [q1, q2, q3] ∧
      FallbackItem q1 1 b1 ∧ FallbackItem q2 2 b2 ∧ FallbackItem q3 3 b3 := by
  obtain ⟨a, b, c, hs⟩ := buildFallbackSummary_eq wikiText
  have hb : b ≠ [] := (buildFallbackSummary_bullet wikiText b (by rw [hs]; simp)).1
  have hc : c ≠ [] := (buildFallbackSummary_bullet wikiText c (by rw [hs]; simp)).1
  have h0 : summaryAt [a, b, c] 0 = .str a := rfl
  have h1 : summaryAt [a, b, c] 1 = .str b := rfl
  have h2 : summaryAt [a, b, c] 2 = .str c := rfl
  have hmode : (lit "default" == lit "math") = false := by decide
  refine ⟨a, b, c, _, _, _, ?_, ?_,
    fallbackItem_mk sh.first 1
      (lit "Based on the information provided, which statement accurately describes " ++
        sanitizeTopicName (.str (sanitizeTopicName (.str topic))) ++ lit "?") a,
    fallbackItem_mk sh.second 2
      (lit "What is a key characteristic or aspect of " ++
        sanitizeTopicName (.str (sanitizeTopicName (.str topic))) ++ lit "?") b,
    fallbackItem_mk sh.third 3
      (lit "Which of the following is most relevant to understanding " ++
        sanitizeTopicName (.str (sanitizeTopicName (.str topic))) ++ lit "?") c⟩
  · simp only [buildFallbackContent, hmode, Bool.false_eq_true, if_false, hs]
    rfl
  · simp only [buildFallbackContent, hmode, Bool.false_eq_true, if_false, hs]
    have hq : readProp (.obj [
        (lit "summary", .arr (List.map JsVal.str [a, b, c])),
        (lit "quiz", buildFallbackQuiz sh (.str (sanitizeTopicName (.str topic))) [a, b, c]
          wikiText),
        (lit "studyTip", .str (lit "Review the main definitions of " ++
          sanitizeTopicName (.str topic) ++ lit " twice today."))]) (lit "quiz") =
        buildFallbackQuiz sh (.str (sanitizeTopicName (.str topic))) [a, b, c] wikiText := rfl
    rw [hq]
    simp only [buildFallbackQuiz, h0, h1, h2, jsOr_str_of_ne_nil b _ hb,
      jsOr_str_of_ne_nil c _ hc, createDistractors_eq]

/-! ## Claims on the topic and the distractors -/

/-- C13, failing input: for the topic `$${a}{b}x` the single pass of `replace`
removes the sequence that starts at the second character and leaves `${b}x`, which is
non-empty after trimming; `sanitizeTopicName` returns it although it contains a sequence of the
form `$`, `{`, characters other than `}`, `}`. -/
theorem sanitizeTopicName_leaves_template :
    jsTrim (stripTemplates doubledTemplateTopic) ≠ [] ∧
      sanitizeTopicName (.str doubledTemplateTopic) = lit "$\x7bb\x7dx" ∧
      ContainsTemplate (sanitizeTopicName (.str doubledTemplateTopic)) := by
  refine ⟨by decide, by decide, [], lit "b", lit "x", by decide, by decide, by decide⟩

/-- C18, failing input: for the source text "It is a fundamental concept in mathematics." the
first summary bullet is the first statement of the pool; `createDistractors` never looks at
its argument, so with a shuffle that leaves the pool in order the first distractor is the
correct answer itself, and the first quiz item holds the correct bullet at index 0 and at
index 1. -/
theorem createDistractors_repeats_answer :
    buildFallbackSummary poolSentenceText =
        [genericDistractors 0, lit "Explore core ideas and definitions.",
          lit "Explore core ideas and definitions."] ∧
      createDistractors (Equiv.refl (Fin 4)) (.str (genericDistractors 0)) =
        [.str (genericDistractors 0), .str (genericDistractors 1),
          .str (genericDistractors 2)] ∧
      readProp (firstElement (readProp
          (buildFallbackContent identityShuffles (lit "Sets") poolSentenceText (lit "default"))
          (lit "quiz"))) (lit "choices") =
        .arr [.str (genericDistractors 0), .str (genericDistractors 0),
          .str (genericDistractors 1), .str (genericDistractors 2)] := by
  refine ⟨by decide, rfl, rfl⟩

/-- C19, failing input: for the topic `$${a}{b}x` the `studyTip` embeds
`sanitizeTopicName(topic)`, which is `${b}x`, while `buildFallbackQuiz` sanitizes that
string a second time and its three questions embed `x`. -/
theorem buildFallbackContent_topic_mismatch :
    sanitizeTopicName (.str doubledTemplateTopic) = lit "$\x7bb\x7dx" ∧
      readProp (buildFallbackContent identityShuffles doubledTemplateTopic
          (lit "A set is a collection of objects.") (lit "default")) (lit "studyTip") =
        .str (lit "Review the main definitions of $\x7bb\x7dx twice today.") ∧
      (elements (readProp (buildFallbackContent identityShuffles doubledTemplateTopic
          (lit "A set is a collection of objects.") (lit "default")) (lit "quiz"))).map
          (fun item => readProp item (lit "question")) =
        [.str (lit
            "Based on the information provided, which statement accurately describes x?"),
          .str (lit "What is a key characteristic or aspect of x?"),
          .str (lit "Which of the following is most relevant to understanding x?")] := by
  refine ⟨by decide, rfl, rfl⟩

/-! ## Route -/

theorem setProp_of_not_mem (props : List (JsString × JsVal)) (key : JsString) (value : JsVal)
    (h : ∀ b ∈ props, b.1 ≠ key) : setProp props key value = props ++ [(key, value)] := by
  have hany : props.any (fun p => p.1 == key) = false := by
    rw [List.any_eq_false]
    intro b hb
    simpa using h b hb
  simp [setProp, hany]

/-- Spreading an object whose keys are distinct and new appends its properties. -/
theorem spreadInto_obj_append (props base : List (JsString × JsVal))
    (hnodup : (props.map Prod.fst).Nodup)
    (hnew : ∀ p ∈ props, ∀ b ∈ base, b.1 ≠ p.1) :
    spreadInto base (.obj props) = base ++ props := by
  induction props generalizing base with
  | nil => simp [spreadInto, ownProps]
  | cons p rest ih =>
    rw [List.map_cons, List.nodup_cons] at hnodup
    have hstep : setProp base p.1 p.2 = base ++ [p] :=
      setProp_of_not_mem base p.1 p.2 (fun b hb => hnew p (List.mem_cons_self _ _) b hb)
    have hrec := ih (base ++ [p]) hnodup.2 (by
      intro q hq b hb
      rcases List.mem_append.1 hb with hb | hb
      · exact hnew q (List.mem_cons_of_mem _ hq) b hb
      · rw [List.mem_singleton] at hb
        subst hb
        intro heq
        exact hnodup.1 (heq ▸ List.mem_map_of_mem Prod.fst hq))
    simp only [spreadInto, ownProps, List.foldl_cons] at hrec ⊢
    rw [hstep, hrec]
    simp

theorem lookup_of_mem_nodup (props : List (JsString × JsVal)) (key : JsString) (value : JsVal)
    (hnodup : (props.map Prod.fst).Nodup) (hmem : (key, value) ∈ props) :
    props.lookup key = some value := by
  induction props with
  | nil => simp at hmem
  | cons p rest ih =>
    rw [List.map_cons, List.nodup_cons] at hnodup
    obtain ⟨k, v⟩ := p
    rcases List.mem_cons.1 hmem with heq | hrest
    · cases heq
      simp [List.lookup]
    · have hne : (key == k) = false := by
        rw [beq_eq_false_iff_ne]
        rintro rfl
        exact hnodup.1 (List.mem_map.2 ⟨(key, value), hrest, rfl⟩)
      simp only [List.lookup, hne]
      exact ih hnodup.2 hrest

/-! ## Claims on the route -/

/-- A request whose topic is missing or blank and whose mode can be lower-cased (it is absent,
empty or a string) is answered with status 400, without a call to a collaborator. -/
theorem studyRoute_missing_topic_of_mode (env : RouteEnv) (query : StudyQuery) (mode : JsString)
    (hmode : requestedMode env query = .ok mode)
    (h : query.topic = .undefined ∨ ∃ topic, query.topic = .str topic ∧ jsTrim topic = []) :
    studyCalls env query = [] ∧
      ∃ body, studyResponse env query = some ⟨400, body⟩ ∧
        readProp body (lit "status") = .str (lit "error") := by
  have hroute : studyRoute env query =
      ([], .forwarded (.HttpError 400 (lit "Query parameter \"topic\" is required.") none)) := by
    rcases h with h | ⟨topic, h, hblank⟩
    · simp [studyRoute, requestedTopic, h, hmode]
    · simp [studyRoute, requestedTopic, h, hblank, hmode]
  refine ⟨by simp [studyCalls, hroute],
    (sendError env (.HttpError 400 (lit "Query parameter \"topic\" is required.") none)).body,
    ?_, ?_⟩
  · simp only [studyResponse, hroute]
    rfl
  · rfl

/-- C17, failing input: `GET /study?mode=a&mode=b` has no topic, and its mode is an array.  The
handler lower-cases the mode before its `try`; `toLowerCase` is not a function of an array, so
a `TypeError` is thrown outside the `try`, the handler never reaches the check of the topic,
and no response with status 400 is sent: there is no response when the framework leaves a
rejected handler alone, and the error middleware answers 500 when the framework forwards the
rejection. -/
theorem studyRoute_repeated_mode_rejects :
    requestedTopic repeatedModeQuery = .ok none ∧
      requestedMode photosynthesisEnv repeatedModeQuery = .error .TypeError ∧
      studyCalls photosynthesisEnv repeatedModeQuery = [] ∧
      studyResponse photosynthesisEnv repeatedModeQuery = none ∧
      (studyResponse forwardingEnv repeatedModeQuery).map (fun r => r.statusCode) = some 500 :=
  ⟨rfl, rfl, rfl, rfl, rfl⟩

/-- C16: for every request with a non-blank `topic` and a `mode` that is absent or lower-cases
to `default` or `math`, when `fetchTopicSummary` returns a non-empty text `W` and
`generateStudyContent` returns an object `P` whose keys are distinct and are neither `status`
nor `topic` (as are `summary`, `quiz`, `studyTip`, and `mathQuestion`), the handler calls
`fetchTopicSummary` with the trimmed topic, then `generateStudyContent` with the trimmed
topic, `W` and the lower-cased mode, and responds with status 200 and a body whose `status` is
`"ok"`, whose `topic` is the trimmed topic, and which carries every field of `P` unchanged.
The hypothesis `hdefault` is a fact of `toLowerCase`. -/
theorem studyRoute_success (env : RouteEnv) (query : StudyQuery) (topic wikiText mode : JsString)
    (payload : List (JsString × JsVal))
    (hdefault : env.toLowerCase (lit "default") = lit "default")
    (htopic : query.topic = .str topic) (hnonblank : jsTrim topic ≠ [])
    (hmode : (query.mode = .undefined ∧ mode = lit "default") ∨
      ∃ m, query.mode = .str m ∧ m ≠ [] ∧ mode = env.toLowerCase m ∧
        (mode = lit "default" ∨ mode = lit "math"))
    (hfetch : env.fetchTopicSummary (jsTrim topic) = .ok (.str wikiText))
    (hW : wikiText ≠ [])
    (hgenerate : env.generateStudyContent (jsTrim topic) (.str wikiText) mode =
      .ok (.obj payload))
    (hdistinct : (payload.map Prod.fst).Nodup)
    (hkeys : ∀ p ∈ payload, p.1 ≠ lit "status" ∧ p.1 ≠ lit "topic") :
    studyCalls env query =
        [.fetchTopicSummary (jsTrim topic),
          .generateStudyContent (jsTrim topic) (.str wikiText) mode] ∧
      ∃ body, studyResponse env query = some ⟨200, body⟩ ∧
        readProp body (lit "status") = .str (lit "ok") ∧
        readProp body (lit "topic") = .str (jsTrim topic) ∧
        ∀ key value, (key, value) ∈ payload → readProp body key = value := by
  have hmodeEq : requestedMode env query = .ok mode := by
    rcases hmode with ⟨hnone, hm⟩ | ⟨m, hsome, hne, hm, _⟩
    · rw [requestedMode, hnone, hm]
      show Except.ok (env.toLowerCase (lit "default")) = _
      rw [hdefault]
    · have htruthy : jsOr (.str m) (.str (lit "default")) = .str m := by
        cases m with
        | nil => exact absurd rfl hne
        | cons x rest => rfl
      rw [requestedMode, hsome, htruthy, hm]
  have htopicEq : requestedTopic query = .ok (some (jsTrim topic)) := by
    rw [requestedTopic, htopic]
  have hvalid : [lit "default", lit "math"].contains mode = true := by
    rcases hmode with ⟨_, hm⟩ | ⟨m, _, _, _, hm | hm⟩
    · rw [hm]; decide
    · rw [hm]; decide
    · rw [hm]; decide
  have hempty : (jsTrim topic).isEmpty = false := by
    cases h : jsTrim topic with
    | nil => exact absurd h hnonblank
    | cons x rest => rfl
  have htruthy : isTruthy (.str wikiText) = true := by
    cases wikiText with
    | nil => exact absurd rfl hW
    | cons x rest => rfl
  have hspread : spreadInto [(lit "status", .str (lit "ok")), (lit "topic", .str (jsTrim topic))]
      (.obj payload) =
      [(lit "status", .str (lit "ok")), (lit "topic", .str (jsTrim topic))] ++ payload := by
    apply spreadInto_obj_append payload _ hdistinct
    intro p hp b hb
    simp only [List.mem_cons, List.mem_singleton, List.not_mem_nil, or_false] at hb
    rcases hb with rfl | rfl
    · exact fun h => (hkeys p hp).1 h.symm
    · exact fun h => (hkeys p hp).2 h.symm
  have hroute : studyRoute env query =
      ([.fetchTopicSummary (jsTrim topic),
          .generateStudyContent (jsTrim topic) (.str wikiText) mode],
        .sent (.obj ([(lit "status", .str (lit "ok")), (lit "topic", .str (jsTrim topic))] ++
          payload))) := by
    simp only [studyRoute, htopicEq, hmodeEq, hempty, Bool.false_eq_true,
      if_false, hvalid, Bool.not_true, hfetch, htruthy, hgenerate, hspread]
  refine ⟨?_,
    .obj ([(lit "status", .str (lit "ok")), (lit "topic", .str (jsTrim topic))] ++ payload),
    ?_, ?_, ?_, ?_⟩
  · simp only [studyCalls, hroute]
  · simp only [studyResponse, hroute]
  · rfl
  · rfl
  intro key value hmem
  have hk := hkeys (key, value) hmem
  have h1 : (key == lit "status") = false := beq_eq_false_iff_ne.2 hk.1
  have h2 : (key == lit "topic") = false := beq_eq_false_iff_ne.2 hk.2
  simp only [readProp, List.cons_append, List.nil_append, List.lookup, List.append_eq,
    h1, h2, lookup_of_mem_nodup payload key value hdistinct hmem, Option.getD_some]

/-- C16, witness: the request `GET /study?topic=Photosynthesis` of the test "returns study
content for valid topic". -/
theorem studyRoute_success_witness :
    studyCalls photosynthesisEnv ⟨.str (lit "Photosynthesis"), .undefined⟩ =
        [.fetchTopicSummary (lit "Photosynthesis"),
          .generateStudyContent (lit "Photosynthesis")
            (.str (lit "Photosynthesis is a process used by plants...")) (lit "default")] ∧
      ∃ body, studyResponse photosynthesisEnv ⟨.str (lit "Photosynthesis"), .undefined⟩ =
          some ⟨200, body⟩ ∧
        readProp body (lit "status") = .str (lit "ok") ∧
        readProp body (lit "topic") = .str (lit "Photosynthesis") ∧
        readProp body (lit "summary") = photosynthesisSummary :=
  have h := studyRoute_success photosynthesisEnv ⟨.str (lit "Photosynthesis"), .undefined⟩
    (lit "Photosynthesis") (lit "Photosynthesis is a process used by plants...") (lit "default")
    [(lit "summary", photosynthesisSummary), (lit "quiz", photosynthesisQuiz),
      (lit "studyTip", .str (lit "Review the light-dependent reactions."))]
    (by decide) rfl (by decide) (Or.inl ⟨rfl, rfl⟩) rfl (by decide) rfl (by decide)
    (by decide)
  ⟨h.1, h.2.elim fun body hb =>
    ⟨body, hb.1, hb.2.1, hb.2.2.1, hb.2.2.2 _ _ (List.mem_cons_self _ _)⟩⟩

/-! ## Encyclopedia client -/

theorem lastIndexOfAux_spec (c : Nat) (s : JsString) (index : Nat) (last : Int) :
    lastIndexOfAux c s index last = last ∨
      ∃ k : Nat, lastIndexOfAux c s index last = ((index + k : Nat) : Int) ∧
        s.get? k = some c := by
  induction s generalizing index last with
  | nil => left; rfl
  | cons x rest ih =>
    simp only [lastIndexOfAux]
    rcases ih (index + 1) (if x == c then (index : Int) else last) with h | ⟨k, hk, hget⟩
    · rw [h]
      split_ifs with hx
      · right
        refine ⟨0, by simp, ?_⟩
        simp only [beq_iff_eq] at hx
        simp [hx]
      · left; rfl
    · right
      refine ⟨k + 1, ?_, by simpa using hget⟩
      rw [hk]
      congr 1
      omega

theorem lastIndexOf_spec (s : JsString) (c : Nat) :
    lastIndexOf s c = -1 ∨ ∃ k : Nat, lastIndexOf s c = (k : Int) ∧ s.get? k = some c := by
  rcases lastIndexOfAux_spec c s 0 (-1) with h | ⟨k, hk, hget⟩
  · left; exact h
  · right; exact ⟨k, by simpa using hk, hget⟩

/-- The shape of `trimContent` on a string of more than 1100 characters. -/
theorem trimContent_long (content : JsString) (h : 1100 < content.length) :
    trimContent content = content.take 1100 ∨
      ∃ n : Nat, 801 ≤ n ∧ n ≤ 1100 ∧ trimContent content = content.take n ∧
        (content.take n).getLast? = some 46 := by
  have hne : content.isEmpty = false := by
    cases content with
    | nil => simp at h
    | cons x rest => rfl
  have hlen : ¬ content.length ≤ 1100 := by omega
  simp only [trimContent, hne, Bool.false_eq_true, if_false, hlen]
  split_ifs with hge
  · right
    rcases lastIndexOf_spec (content.take 1100) 46 with hneg | ⟨k, hk, hget⟩
    · rw [hneg] at hge
      omega
    · rw [hk] at hge ⊢
      have hk1100 : k < 1100 := by
        have := List.get?_eq_some.1 hget
        obtain ⟨hlt, _⟩ := this
        simp only [List.length_take] at hlt
        omega
      have htn : ((k : Int) + 1).toNat = k + 1 := by omega
      rw [htn]
      have htake : (content.take 1100).take (k + 1) = content.take (k + 1) := by
        rw [List.take_take]
        congr 1
        omega
      refine ⟨k + 1, by omega, by omega, htake, ?_⟩
      have hget' : (content.take (k + 1)).get? k = some 46 := by
        rw [← htake]
        simp only [List.get?_eq_getElem?] at hget ⊢
        rw [List.getElem?_take_of_lt (by omega)]
        exact hget
      have hl : (content.take (k + 1)).length = k + 1 := by
        simp only [List.length_take]
        omega
      rw [List.getLast?_eq_getElem?, hl]
      simpa [List.get?_eq_getElem?] using hget'
  · left; rfl

theorem trimContent_short (content : JsString) (h : content.length ≤ 1100) :
    trimContent content = content := by
  cases content with
  | nil => rfl
  | cons x rest =>
    have hne : (x :: rest).isEmpty = false := rfl
    simp only [trimContent, hne, Bool.false_eq_true, if_false, h, if_true]

/-- C20: for every string `content`, `trimContent(content)` is a prefix of `content` of length at
most 1100; it is `content` itself when `content` has at most 1100 characters, and otherwise it
is either the first 1100 characters or a prefix that ends with `.` and has between 801 and
1100 characters; hence `trimContent` is idempotent. -/
theorem trimContent_spec (content : JsString) :
    (∃ n : Nat, n ≤ 1100 ∧ trimContent content = content.take n) ∧
    (trimContent content).length ≤ 1100 ∧
    (content.length ≤ 1100 → trimContent content = content) ∧
    (1100 < content.length →
      trimContent content = content.take 1100 ∨
      ∃ n : Nat, 801 ≤ n ∧ n ≤ 1100 ∧ trimContent content = content.take n ∧
        (content.take n).getLast? = some 46) ∧
    trimContent (trimContent content) = trimContent content := by
  have hpre : ∃ n : Nat, n ≤ 1100 ∧ trimContent content = content.take n := by
    by_cases h : content.length ≤ 1100
    · exact ⟨content.length, h, by rw [trimContent_short content h, List.take_length]⟩
    · rcases trimContent_long content (by omega) with h1 | ⟨n, _, hn, h2, _⟩
      · exact ⟨1100, le_refl _, h1⟩
      · exact ⟨n, hn, h2⟩
  have hlen : (trimContent content).length ≤ 1100 := by
    obtain ⟨n, hn, h⟩ := hpre
    rw [h, List.length_take]
    omega
  exact ⟨hpre, hlen, trimContent_short content, trimContent_long content,
    trimContent_short _ hlen⟩

/-- C20, witness: 900 letters, a period and 300 more letters; the result is a prefix of at
most 1100 characters. -/
theorem trimContent_spec_witness :
    1100 < (List.replicate 900 97 ++ [46] ++ List.replicate 300 98 : JsString).length ∧
      (trimContent (List.replicate 900 97 ++ [46] ++ List.replicate 300 98) =
          (List.replicate 900 97 ++ [46] ++ List.replicate 300 98 : JsString).take 1100 ∨
        ∃ n : Nat, 801 ≤ n ∧ n ≤ 1100 ∧
          trimContent (List.replicate 900 97 ++ [46] ++ List.replicate 300 98) =
            (List.replicate 900 97 ++ [46] ++ List.replicate 300 98 : JsString).take n ∧
          ((List.replicate 900 97 ++ [46] ++ List.replicate 300 98 : JsString).take n).getLast? =
            some 46) :=
  ⟨by decide, (trimContent_spec _).2.2.2.1 (by decide)⟩

end SmartStudy
